import Mathlib

/-!
Shallow embedding of the bind-dyndb-ldap synchronization core
(src/ldap_convert.c, src/ldap_helper.c, src/zone_register.c) and proofs
about the behaviour of its name codec, zone projector, PTR synchronization,
directory write-back and reconnect machinery.

Machine integers (u32 serials, unix time) are modelled as `Nat` with
explicit reduction modulo 2^32 where the C code relies on wraparound.
Fallible C functions returning `isc_result_t` are modelled with `Except`,
`Option`, or an explicit result-code enumeration.
-/

namespace BindDyndbLdap

/-- Result codes distinguished by the modelled code paths (`isc_result_t` /
`dns_result_t` values that the modelled functions can produce). -/
inductive RCode
  | success
  | notFound
  | partMatch
  | unexpectedEnd
  | notImplemented
  | badOwnerName
  | ignore
  | unexpectedToken
  | singleton
  | softQuota
  | disabled
  | failure
  | servFail
deriving DecidableEq, Repr

/-! ## RFC 1982 serial arithmetic (lib/isc/serial.c, lib/dns/update.c)

`isc_serial_gt(a, b)` is `(isc_int32_t)(a - b) > 0` on u32 operands;
`isc_serial_lt(a, b)` additionally excludes the incomparable pair
`a == (b ^ 0x80000000)`.  We model the u32 subtraction `a - b` as
`serialDist a b` below. -/

/-- Modulus of 32-bit serial arithmetic. -/
def U32 : Nat := 4294967296

/-- Value of the u32 expression `a - b` (wraparound subtraction). -/
def serialDist (a b : Nat) : Nat := (a % U32 + (U32 - b % U32)) % U32

/-- Model of `isc_serial_gt`: the i32 reinterpretation of `a - b` is positive. -/
def isc_serial_gt (a b : Nat) : Bool :=
  0 < serialDist a b && serialDist a b < 2147483648

/-- Model of `isc_serial_lt`: the i32 reinterpretation of `a - b` is negative
and `a` is not the incomparable opposite `b ^ 0x80000000` (the excluded case
is exactly distance `2^31`, so the test collapses to `dist > 2^31`). -/
def isc_serial_lt (a b : Nat) : Bool :=
  2147483648 < serialDist a b

/-- Model of `isc_serial_le`: equality or `isc_serial_lt`. -/
def isc_serial_le (a b : Nat) : Bool :=
  a % U32 == b % U32 || isc_serial_lt a b

/-- Model of `dns_update_soaserial(serial, dns_updatemethod_unixtime)` with the
current unix time passed explicitly: use `now` when it is nonzero and
serial-greater than `serial`, otherwise increment in RFC 1982 fashion,
skipping zero. -/
def dns_update_soaserial (serial now : Nat) : Nat :=
  if now % U32 ≠ 0 ∧ isc_serial_gt now serial then now % U32
  else
    let s := (serial + 1) % U32
    if s = 0 then 1 else s

/-! ## Connection reconnect machinery (`ldap_reconnect`, ldap_helper.c) -/

/-- Per-connection reconnect bookkeeping: `tries` counts consecutive failed
bind attempts since the last success, `nextReconnect` is the earliest
instant (`isc_time_t`, modelled as `Nat`) at which a non-forced reconnect
may run. -/
structure ConnState where
  tries : Nat
  nextReconnect : Nat
deriving DecidableEq, Repr

/-- Outcome of the front half of `ldap_reconnect`: either the call returns
`ISC_R_SOFTQUOTA` without touching the connection, or it proceeds to the
bind attempt with the given updated bookkeeping. -/
inductive ReconnectOutcome
  | softQuota
  | bindAttempt (st : ConnState)
deriving DecidableEq, Repr

/-- The backoff table `{2, 5, 20, UINT_MAX}` from `ldap_reconnect`. -/
def reconnectIntervals : List Nat := [2, 5, 20, 4294967295]

/-- Model of the gating and backoff-recording part of `ldap_reconnect`:
`force` jumps straight to the bind; otherwise a connection with at least one
recorded failure whose backoff window has not elapsed gets `SOFTQUOTA`;
otherwise the next-reconnect time is recorded from the backoff table capped
by `reconnect_interval` and `tries` is incremented before binding. -/
def ldap_reconnect (st : ConnState) (force : Bool) (now reconnectInterval : Nat) :
    ReconnectOutcome :=
  if force then .bindAttempt st
  else if 0 < st.tries ∧ now < st.nextReconnect then .softQuota
  else
    let i := min (reconnectIntervals.length - 1) st.tries
    let seconds := min (reconnectIntervals.getD i 0) reconnectInterval
    .bindAttempt { tries := st.tries + 1, nextReconnect := now + seconds }

/-! ## Zone register (`zone_register.c`) -/

/-- Result of `dns_rbt_findname` restricted to the cases the register code
distinguishes: exact match, partial (ancestor) match, or no match. -/
inductive FindRes
  | success
  | partMatch
  | notFound
deriving DecidableEq, Repr

/-- The zone register modelled as an association list from absolute origin
(label list, least significant label first) to the registered DN.
`zr_add_zone` refuses duplicate origins, so the key list is duplicate-free
in every reachable state. -/
abbrev ZoneReg := List (List String × String)

/-- Model of `dns_rbt_findname(zr->rbt, origin, 0, NULL, &data)`: exact name
match yields `SUCCESS`; a registered proper ancestor of the name yields
`DNS_R_PARTIALMATCH`; otherwise `NOTFOUND`. -/
def rbt_findname (reg : ZoneReg) (n : List String) : FindRes :=
  if reg.any (fun e => decide (e.1 = n)) then .success
  else if reg.any (fun e => e.1.isSuffixOf n && decide (e.1 ≠ n)) then .partMatch
  else .notFound

/-- Model of `zr_del_zone`: `NOTFOUND` and `PARTIALMATCH` are coalesced into
success with the register untouched; an exact match deletes the node. -/
def zr_del_zone (reg : ZoneReg) (origin : List String) : RCode × ZoneReg :=
  match rbt_findname reg origin with
  | .notFound => (.success, reg)
  | .partMatch => (.success, reg)
  | .success => (.success, reg.filter (fun e => decide (e.1 ≠ origin)))

/-- Helper: deleting an origin with no exact match in the register succeeds
and leaves the register untouched (both the `NOTFOUND` and the
`PARTIALMATCH` branch of `zr_del_zone`). -/
theorem zr_del_zone_of_not_present (reg : ZoneReg) (origin : List String)
    (h : ∀ e ∈ reg, e.1 ≠ origin) :
    zr_del_zone reg origin = (.success, reg) := by
  have hany : (reg.any fun e => decide (e.1 = origin)) = false := by
    simp only [List.any_eq_false]
    intro x hx
    simpa using h x hx
  have hf : rbt_findname reg origin ≠ .success := by
    unfold rbt_findname
    rw [hany]
    simp only [Bool.false_eq_true, if_false]
    split <;> simp
  unfold zr_del_zone
  rcases h1 : rbt_findname reg origin with _ | _ | _
  · exact absurd h1 hf
  · rfl
  · rfl

/-- Helper: after `zr_del_zone` no entry with the deleted origin remains. -/
theorem zr_del_zone_removed (reg : ZoneReg) (origin : List String) :
    ∀ e ∈ (zr_del_zone reg origin).2, e.1 ≠ origin := by
  intro e he hcontra
  unfold zr_del_zone at he
  rcases hf : rbt_findname reg origin with _ | _ | _ <;> rw [hf] at he <;>
    simp only at he
  · rw [List.mem_filter] at he
    exact (by simpa using he.2 : e.1 ≠ origin) hcontra
  · unfold rbt_findname at hf
    by_cases hany : (reg.any fun x => decide (x.1 = origin)) = true
    · rw [if_pos hany] at hf
      cases hf
    · exact hany (List.any_eq_true.mpr ⟨e, he, decide_eq_true hcontra⟩)
  · unfold rbt_findname at hf
    by_cases hany : (reg.any fun x => decide (x.1 = origin)) = true
    · rw [if_pos hany] at hf
      cases hf
    · exact hany (List.any_eq_true.mpr ⟨e, he, decide_eq_true hcontra⟩)

/-- C9: for a connection in the `Failed` state (`tries ≥ 1`), a non-forced
reconnect before `nextReconnect` returns `SOFTQUOTA` without binding; a
forced reconnect proceeds immediately without touching the bookkeeping;
and a non-blocked attempt that becomes the k-th consecutive failure
(so it ran with `tries = k - 1`) records the delay
`min(table[min(k-1, 3)], reconnect_interval)` for the backoff table
`{2, 5, 20, UINT_MAX}`. -/
theorem c9_reconnect_backoff
    (st : ConnState) (now ival k : Nat)
    (hk : 1 ≤ k) (htries : st.tries = k - 1) :
    (1 ≤ st.tries → now < st.nextReconnect →
        ldap_reconnect st false now ival = .softQuota) ∧
    (ldap_reconnect st true now ival = .bindAttempt st) ∧
    ((st.tries = 0 ∨ st.nextReconnect ≤ now) →
        ldap_reconnect st false now ival =
          .bindAttempt ⟨k, now + min (reconnectIntervals.getD (min (k - 1) 3) 0) ival⟩) := by
  refine ⟨?_, ?_, ?_⟩
  · intro h1 h2
    unfold ldap_reconnect
    rw [if_neg (by simp), if_pos ⟨h1, h2⟩]
  · unfold ldap_reconnect
    rw [if_pos rfl]
  · intro h
    unfold ldap_reconnect
    rw [if_neg (by simp), if_neg (by omega)]
    have h2 : k - 1 + 1 = k := by omega
    simp only [htries, h2, show reconnectIntervals.length - 1 = 3 from rfl,
      Nat.min_comm 3 (k - 1)]

/-- Witness for `c9_reconnect_backoff` at `tries = 1`, `nextReconnect = 50`:
an early attempt at time 10 is refused with `SOFTQUOTA`, a forced attempt
proceeds, and the attempt at time 60 records delay `min(table[1], 600) = 5`. -/
theorem c9_reconnect_backoff_witness :
    ldap_reconnect ⟨1, 50⟩ false 10 600 = .softQuota ∧
    ldap_reconnect ⟨1, 50⟩ true 10 600 = .bindAttempt ⟨1, 50⟩ ∧
    ldap_reconnect ⟨1, 50⟩ false 60 600 = .bindAttempt ⟨2, 65⟩ := by
  refine ⟨(c9_reconnect_backoff ⟨1, 50⟩ 10 600 2 (by decide) rfl).1 (by decide) (by decide),
          (c9_reconnect_backoff ⟨1, 50⟩ 10 600 2 (by decide) rfl).2.1,
          ?_⟩
  have h := (c9_reconnect_backoff ⟨1, 50⟩ 60 600 2 (by decide) rfl).2.2
    (Or.inr (by decide))
  simpa using h

/-- C10: `zr_del_zone` is idempotent at the interface: deleting an origin
that is not registered (no exact node, or only a partial match) returns
success and leaves the register unchanged; a registered origin is removed;
and a second `zr_del_zone` call with the same origin again returns success
and changes nothing. -/
theorem c10_zr_del_zone_idempotent (reg : ZoneReg) (origin : List String) :
    ((∀ e ∈ reg, e.1 ≠ origin) → zr_del_zone reg origin = (.success, reg)) ∧
    ((zr_del_zone reg origin).1 = .success) ∧
    (∀ e ∈ (zr_del_zone reg origin).2, e.1 ≠ origin) ∧
    (zr_del_zone (zr_del_zone reg origin).2 origin =
      (.success, (zr_del_zone reg origin).2)) := by
  refine ⟨zr_del_zone_of_not_present reg origin, ?_, zr_del_zone_removed reg origin, ?_⟩
  · unfold zr_del_zone
    split <;> rfl
  · exact zr_del_zone_of_not_present _ origin (zr_del_zone_removed reg origin)

/-- Witness for `c10_zr_del_zone_idempotent` on a register holding only the
zone `example.com.` (labels stored least significant first): deleting an
unregistered origin changes nothing, and a repeated delete of
`example.com.` also returns success. -/
theorem c10_zr_del_zone_idempotent_witness :
    zr_del_zone [(["example", "com"], "dn")] ["other", "com"] =
      (.success, [(["example", "com"], "dn")]) ∧
    zr_del_zone (zr_del_zone [(["example", "com"], "dn")] ["example", "com"]).2
        ["example", "com"] =
      (.success, (zr_del_zone [(["example", "com"], "dn")] ["example", "com"]).2) :=
  ⟨(c10_zr_del_zone_idempotent [(["example", "com"], "dn")] ["other", "com"]).1
      (by decide),
   (c10_zr_del_zone_idempotent [(["example", "com"], "dn")] ["example", "com"]).2.2.2⟩

/-! ## DN to DNS name conversion (`dn_to_dnsname`, ldap_convert.c)

DNS names are modelled as label lists, least significant label first; the
absolute root name is `[]`.  An RDN value is modelled as already split into
labels plus an absoluteness flag (`dns_name_fromtext` appends the origin to
relative names).  The `singleString` flag stands for "single-valued RDN
whose attribute is a string" — both the multi-valued and the non-string
case in the C code fail with `ISC_R_NOTIMPLEMENTED`. -/

/-- Textual DNS name as handed to `dns_name_fromtext`: its labels and
whether the text ended with a dot (absolute). -/
structure NameText where
  labels : List String
  absolute : Bool
deriving DecidableEq, Repr

/-- Model of `dns_name_fromtext(name, text, origin, 0, NULL)`: an absolute
text stands alone, a relative text gets the origin appended. -/
def dns_name_fromtext (t : NameText) (origin : List String) : List String :=
  if t.absolute then t.labels else t.labels ++ origin

/-- One RDN of a parsed LDAP DN. -/
structure RDN where
  attr : String
  value : NameText
  singleString : Bool
deriving DecidableEq, Repr

/-- ASCII lowercasing of one character, as done by `strncasecmp`. -/
def asciiLower (c : Char) : Char :=
  if 65 ≤ c.toNat ∧ c.toNat ≤ 90 then Char.ofNat (c.toNat + 32) else c

/-- Model of `strncasecmp("idnsName", attr.bv_val, attr.bv_len) == 0`: the
comparison looks at only `bv_len` bytes, so it accepts any attribute that
is a case-insensitive prefix of `idnsName` (and rejects longer attributes
at the NUL terminator). -/
def isIdnsNameAttr (a : String) : Bool :=
  a.data.length ≤ 8 &&
    a.data.map asciiLower == ['i','d','n','s','n','a','m','e'].take a.data.length

/-- Error codes produced by `dn_to_dnsname`. -/
inductive DnError
  | unexpectedEnd
  | notImplemented
  | badOwnerName
deriving DecidableEq, Repr

/-- The `idx == 2` arm of `dn_to_dnsname`: derive the origin from the second
`idnsName` value relative to the root, the owner from the first value
relative to that origin, then reject owners that are not subdomains of the
origin and owners equal to the origin (zone apex). -/
def dnTwoComponentCase (v0 v1 : NameText) :
    Except DnError (List String × List String) :=
  let origin := dns_name_fromtext v1 []
  let name := dns_name_fromtext v0 origin
  if ¬ origin.isSuffixOf name then .error .badOwnerName
  else if name = origin then .error .badOwnerName
  else .ok (name, origin)

/-- Model of `dn_to_dnsname(mctx, dn_str, target, otarget)` on a parsed DN.
The scan stops at the first RDN that is not an `idnsName` (or at the third
RDN, which it still validates but whose attribute no longer matters); zero
leading `idnsName` components fail with `ISC_R_UNEXPECTEDEND`, one yields
`(owner, root)`, two or more yield the two-component case. -/
def dn_to_dnsname (dn : List RDN) : Except DnError (List String × List String) :=
  match dn with
  | [] => .error .unexpectedEnd
  | r0 :: rest0 =>
    if ¬ r0.singleString then .error .notImplemented
    else if ¬ isIdnsNameAttr r0.attr then .error .unexpectedEnd
    else match rest0 with
      | [] => .ok (dns_name_fromtext r0.value [], [])
      | r1 :: rest1 =>
        if ¬ r1.singleString then .error .notImplemented
        else if ¬ isIdnsNameAttr r1.attr then
          .ok (dns_name_fromtext r0.value [], [])
        else match rest1 with
          | [] => dnTwoComponentCase r0.value r1.value
          | r2 :: _ =>
            if ¬ r2.singleString then .error .notImplemented
            else dnTwoComponentCase r0.value r1.value

/-- C2: for a DN with exactly two `idnsName` components, `dn_to_dnsname`
fails with `DNS_R_BADOWNERNAME` both when the owner derived from the first
component is not a subdomain of the origin derived from the second and when
the two names are equal (zone apex), and in the remaining case succeeds
with the owner name and the zone origin. -/
theorem c2_dn_to_dnsname_two_components
    (v0 v1 : NameText) (rest : List RDN)
    (hrest : ∀ r2 ∈ rest.head?, r2.singleString = true) :
    ((dns_name_fromtext v1 []).isSuffixOf
        (dns_name_fromtext v0 (dns_name_fromtext v1 [])) = false →
      dn_to_dnsname (⟨"idnsName", v0, true⟩ :: ⟨"idnsName", v1, true⟩ :: rest) =
        .error .badOwnerName) ∧
    (dns_name_fromtext v0 (dns_name_fromtext v1 []) = dns_name_fromtext v1 [] →
      dn_to_dnsname (⟨"idnsName", v0, true⟩ :: ⟨"idnsName", v1, true⟩ :: rest) =
        .error .badOwnerName) ∧
    ((dns_name_fromtext v1 []).isSuffixOf
        (dns_name_fromtext v0 (dns_name_fromtext v1 [])) = true →
      dns_name_fromtext v0 (dns_name_fromtext v1 []) ≠ dns_name_fromtext v1 [] →
      dn_to_dnsname (⟨"idnsName", v0, true⟩ :: ⟨"idnsName", v1, true⟩ :: rest) =
        .ok (dns_name_fromtext v0 (dns_name_fromtext v1 []),
             dns_name_fromtext v1 [])) := by
  have hattr : isIdnsNameAttr "idnsName" = true := by decide
  have hcase : dn_to_dnsname (⟨"idnsName", v0, true⟩ :: ⟨"idnsName", v1, true⟩ :: rest) =
      dnTwoComponentCase v0 v1 := by
    unfold dn_to_dnsname
    simp only [hattr, not_true, if_neg, if_false]
    match rest, hrest with
    | [], _ => simp
    | r2 :: rs, hrest =>
      have h2 : r2.singleString = true := hrest r2 rfl
      simp [h2]
  refine ⟨?_, ?_, ?_⟩
  · intro hsub
    rw [hcase]
    unfold dnTwoComponentCase
    rw [if_pos (by simp [hsub])]
  · intro heq
    rw [hcase]
    unfold dnTwoComponentCase
    by_cases hsub : (dns_name_fromtext v1 []).isSuffixOf
        (dns_name_fromtext v0 (dns_name_fromtext v1 [])) = true
    · rw [if_neg (by simp [hsub]), if_pos heq]
    · rw [if_pos (by simpa using hsub)]
  · intro hsub hne
    rw [hcase]
    unfold dnTwoComponentCase
    rw [if_neg (by simp [hsub]), if_neg hne]

/-- Witness for `c2_dn_to_dnsname_two_components` on the DN
`idnsName=host, idnsName=example.com., cn=dns`: the relative owner
`host` is placed under the origin and accepted, while (by the first two
parts at other values) out-of-zone and apex owners are rejected. -/
theorem c2_dn_to_dnsname_two_components_witness :
    dn_to_dnsname [⟨"idnsName", ⟨["host"], false⟩, true⟩,
                   ⟨"idnsName", ⟨["example", "com"], true⟩, true⟩,
                   ⟨"cn", ⟨["dns"], false⟩, true⟩] =
      .ok (["host", "example", "com"], ["example", "com"]) ∧
    dn_to_dnsname [⟨"idnsName", ⟨["other", "test"], true⟩, true⟩,
                   ⟨"idnsName", ⟨["example", "com"], true⟩, true⟩] =
      .error .badOwnerName ∧
    dn_to_dnsname [⟨"idnsName", ⟨["example", "com"], true⟩, true⟩,
                   ⟨"idnsName", ⟨["example", "com"], true⟩, true⟩] =
      .error .badOwnerName := by
  refine ⟨?_, ?_, ?_⟩
  · exact (c2_dn_to_dnsname_two_components ⟨["host"], false⟩
      ⟨["example", "com"], true⟩ [⟨"cn", ⟨["dns"], false⟩, true⟩]
      (by intro r2 h; cases h; rfl)).2.2 (by decide) (by decide)
  · exact (c2_dn_to_dnsname_two_components ⟨["other", "test"], true⟩
      ⟨["example", "com"], true⟩ [] (by intro r2 h; cases h)).1 (by decide)
  · exact (c2_dn_to_dnsname_two_components ⟨["example", "com"], true⟩
      ⟨["example", "com"], true⟩ [] (by intro r2 h; cases h)).2.1 (by decide)

/-! ## DNS-to-LDAP escaping (`dns_to_ldap_dn_escape`, ldap_convert.c)

The input is the master-file text of a label sequence, modelled as its
byte list (C string, so without NUL bytes; bytes are `Nat` values below
256 in practice).  The output is the LDAP-escaped byte list. -/

/-- Bytes the function copies verbatim: `isalnum` (C locale) plus
`.`, `-`, `_`. -/
def ldapSafeByte (c : Nat) : Bool :=
  (65 ≤ c && c ≤ 90) || (97 ≤ c && c ≤ 122) || (48 ≤ c && c ≤ 57) ||
    c == 46 || c == 45 || c == 95

/-- Model of `isdigit` for a byte. -/
def cIsDigit (c : Nat) : Bool := 48 ≤ c && c ≤ 57

/-- Lowercase hexadecimal digit for a value below 16, as printed by
`"%02x"`. -/
def hexDigitChar (n : Nat) : Nat := if n < 10 then 48 + n else 87 + n

/-- The three output bytes of the `\xy` LDAP escape of byte `v`. -/
def ldapHexEscape (v : Nat) : List Nat :=
  [92, hexDigitChar (v / 16), hexDigitChar (v % 16)]

/-- Errors of the conversion: `DNS_R_BADESCAPE` for truncated escapes and
`ISC_R_NOSPACE` when `isc_string_printf("\\%02x", ascii_val)` does not fit
in the 4-byte window, i.e. whenever the computed value is outside 0..255. -/
inductive EscError
  | badEscape
  | noSpace
deriving DecidableEq, Repr

/-- Model of `isc_string_printf(esc_name + esc_idx, 4, "\\%02x", ascii_val)`:
values in 0..255 yield exactly two hex digits, anything else needs more
than three characters and fails with `ISC_R_NOSPACE`. -/
def escPrintf (v : Int) : Except EscError (List Nat) :=
  if 0 ≤ v ∧ v < 256 then .ok (ldapHexEscape v.toNat) else .error .noSpace

/-- Model of `dns_to_ldap_dn_escape`.  Safe bytes are copied; any other raw
byte is hex-escaped; a backslash starts a master-file escape: `\DDD` when a
digit follows (the second and third byte are used without a digit check)
and `\X` otherwise; a backslash too close to the end of the input fails
with `DNS_R_BADESCAPE`. -/
def dns_to_ldap_dn_escape : List Nat → Except EscError (List Nat)
  | [] => .ok []
  | c :: rest =>
    if ldapSafeByte c then (dns_to_ldap_dn_escape rest).map (c :: ·)
    else if c ≠ 92 then
      (escPrintf (c : Int)).bind fun e => (dns_to_ldap_dn_escape rest).map (e ++ ·)
    else
      match rest with
      | [] => .error .badEscape
      | d1 :: rest1 =>
        if cIsDigit d1 then
          match rest1 with
          | d2 :: d3 :: rest2 =>
            (escPrintf (100 * ((d1 : Int) - 48) + 10 * ((d2 : Int) - 48) +
                ((d3 : Int) - 48))).bind
              fun e => (dns_to_ldap_dn_escape rest2).map (e ++ ·)
          | _ => .error .badEscape
        else
          (escPrintf (d1 : Int)).bind fun e =>
            (dns_to_ldap_dn_escape rest1).map (e ++ ·)

/-- Payload of the backslash branch of `dns_to_ldap_dn_escape` (the code
from the `if (isdigit(...))` test onward), split out so that the
conversion of a list starting with a backslash can be stated as one
equation. -/
def dnsEscapeSeq (rest : List Nat) : Except EscError (List Nat) :=
  match rest with
  | [] => .error .badEscape
  | d1 :: rest1 =>
    if cIsDigit d1 then
      match rest1 with
      | d2 :: d3 :: rest2 =>
        (escPrintf (100 * ((d1 : Int) - 48) + 10 * ((d2 : Int) - 48) +
            ((d3 : Int) - 48))).bind
          fun e => (dns_to_ldap_dn_escape rest2).map (e ++ ·)
      | _ => .error .badEscape
    else
      (escPrintf (d1 : Int)).bind fun e =>
        (dns_to_ldap_dn_escape rest1).map (e ++ ·)

/-- Helper equation: a safe leading byte is copied through. -/
theorem conv_cons_safe {c : Nat} (rest : List Nat) (h : ldapSafeByte c = true) :
    dns_to_ldap_dn_escape (c :: rest) =
      (dns_to_ldap_dn_escape rest).map (c :: ·) := by
  rcases rest with _ | ⟨d1, _ | ⟨d2, _ | ⟨d3, r⟩⟩⟩ <;>
    simp [dns_to_ldap_dn_escape, h]

/-- Helper equation: a raw unsafe non-backslash byte is hex escaped. -/
theorem conv_cons_raw {c : Nat} (rest : List Nat) (h : ldapSafeByte c = false)
    (hne : c ≠ 92) :
    dns_to_ldap_dn_escape (c :: rest) =
      (escPrintf (c : Int)).bind fun e =>
        (dns_to_ldap_dn_escape rest).map (e ++ ·) := by
  rcases rest with _ | ⟨d1, _ | ⟨d2, _ | ⟨d3, r⟩⟩⟩ <;>
    simp [dns_to_ldap_dn_escape, h, hne]

/-- Helper equation: a leading backslash starts a master-file escape. -/
theorem conv_cons_backslash (rest : List Nat) :
    dns_to_ldap_dn_escape (92 :: rest) = dnsEscapeSeq rest := by
  rcases rest with _ | ⟨d1, _ | ⟨d2, _ | ⟨d3, r⟩⟩⟩ <;>
    simp [dns_to_ldap_dn_escape, dnsEscapeSeq, ldapSafeByte]
/-- Helper: a successful `escPrintf` implies the value was in 0..255 and
the output is its hex escape. -/
theorem escPrintf_ok {v : Int} {e : List Nat} (h : escPrintf v = .ok e) :
    0 ≤ v ∧ v < 256 ∧ e = ldapHexEscape v.toNat := by
  unfold escPrintf at h
  split at h
  · rename_i hc
    cases h
    exact ⟨hc.1, hc.2, rfl⟩
  · cases h

/-- Specification-side rendering relation: the output is the concatenation
of, for each input unit, the unit itself when it is a safe raw byte, and
the `\\xy` hex escape of the resolved value otherwise (raw unsafe byte,
resolved `\\DDD` escape, or `\\X` escape). -/
inductive EscRendered : List Nat → List Nat → Prop
  | nil : EscRendered [] []
  | safe {c : Nat} {s o : List Nat} : ldapSafeByte c = true → EscRendered s o →
      EscRendered (c :: s) (c :: o)
  | rawUnsafe {c : Nat} {s o : List Nat} : ldapSafeByte c = false → c ≠ 92 → c < 256 →
      EscRendered s o → EscRendered (c :: s) (ldapHexEscape c ++ o)
  | escDecimal {d1 d2 d3 : Nat} {s o : List Nat} (v : Int) : cIsDigit d1 = true →
      v = 100 * ((d1 : Int) - 48) + 10 * ((d2 : Int) - 48) + ((d3 : Int) - 48) →
      0 ≤ v → v < 256 → EscRendered s o →
      EscRendered (92 :: d1 :: d2 :: d3 :: s) (ldapHexEscape v.toNat ++ o)
  | escSingle {d1 : Nat} {s o : List Nat} : cIsDigit d1 = false → d1 < 256 → EscRendered s o →
      EscRendered (92 :: d1 :: s) (ldapHexEscape d1 ++ o)

/-- Helper: every accepted conversion is rendered according to
`EscRendered`. -/
theorem dns_to_ldap_dn_escape_rendered (s out : List Nat)
    (h : dns_to_ldap_dn_escape s = .ok out) : EscRendered s out := by
  induction s using dns_to_ldap_dn_escape.induct generalizing out with
  | case1 =>
    cases h
    exact .nil
  | case2 c rest hsafe ih =>
    rw [conv_cons_safe rest hsafe] at h
    cases ho : dns_to_ldap_dn_escape rest with
    | error e => rw [ho] at h; cases h
    | ok o =>
      rw [ho] at h
      cases h
      exact .safe hsafe (ih o ho)
  | case3 c rest hsafe hne ih =>
    rw [conv_cons_raw rest (by simpa using hsafe) hne] at h
    cases hp : escPrintf (c : Int) with
    | error e => rw [hp] at h; cases h
    | ok e =>
      rw [hp] at h
      cases ho : dns_to_ldap_dn_escape rest with
      | error e2 => rw [ho] at h; simp [Except.bind, Except.map] at h
      | ok o =>
        rw [ho] at h
        simp only [Except.bind, Except.map] at h
        cases h
        obtain ⟨h0, h256, he⟩ := escPrintf_ok hp
        have hc : c < 256 := by exact_mod_cast h256
        have he2 : ldapHexEscape ((c : Int)).toNat = ldapHexEscape c := by simp
        rw [he, he2]
        exact EscRendered.rawUnsafe (by simpa using hsafe) hne hc (ih o ho)
  | case4 c hsafe hne =>
    have hc : c = 92 := not_not.mp hne
    subst hc
    rw [conv_cons_backslash []] at h
    cases h
  | case5 c hsafe hne d1 hdig d2 d3 rest2 ih =>
    have hc : c = 92 := not_not.mp hne
    subst hc
    rw [conv_cons_backslash (d1 :: d2 :: d3 :: rest2)] at h
    simp only [dnsEscapeSeq, hdig, if_pos] at h
    cases hp : escPrintf (100 * ((d1 : Int) - 48) + 10 * ((d2 : Int) - 48) +
        ((d3 : Int) - 48)) with
    | error e => rw [hp] at h; cases h
    | ok e =>
      rw [hp] at h
      cases ho : dns_to_ldap_dn_escape rest2 with
      | error e2 => rw [ho] at h; simp [Except.bind, Except.map] at h
      | ok o =>
        rw [ho] at h
        simp only [Except.bind, Except.map] at h
        cases h
        obtain ⟨h0, h256, he⟩ := escPrintf_ok hp
        rw [he]
        exact EscRendered.escDecimal _ hdig rfl h0 h256 (ih o ho)
  | case6 c hsafe hne d1 rest1 hdig hshape =>
    have hc : c = 92 := not_not.mp hne
    subst hc
    rw [conv_cons_backslash (d1 :: rest1)] at h
    simp only [dnsEscapeSeq, hdig, if_pos] at h
    rcases rest1 with _ | ⟨x, _ | ⟨y, r⟩⟩
    · cases h
    · cases h
    · exact absurd rfl (fun heq => hshape x y r heq)
  | case7 c hsafe hne d1 rest1 hdig ih =>
    have hc : c = 92 := not_not.mp hne
    subst hc
    rw [conv_cons_backslash (d1 :: rest1)] at h
    simp only [dnsEscapeSeq, hdig, Bool.false_eq_true, if_false] at h
    cases hp : escPrintf (d1 : Int) with
    | error e => rw [hp] at h; cases h
    | ok e =>
      rw [hp] at h
      cases ho : dns_to_ldap_dn_escape rest1 with
      | error e2 => rw [ho] at h; simp [Except.bind, Except.map] at h
      | ok o =>
        rw [ho] at h
        simp only [Except.bind, Except.map] at h
        cases h
        obtain ⟨h0, h256, he⟩ := escPrintf_ok hp
        have hd : d1 < 256 := by exact_mod_cast h256
        have he2 : ldapHexEscape ((d1 : Int)).toNat = ldapHexEscape d1 := by simp
        rw [he, he2]
        exact EscRendered.escSingle (by simpa using hdig) hd (ih o ho)

/-- Helper: a prefix of safe bytes is copied through unchanged and the
conversion continues on the remainder. -/
theorem conv_safe_append (pre l : List Nat) (h : pre.all ldapSafeByte = true) :
    dns_to_ldap_dn_escape (pre ++ l) =
      (dns_to_ldap_dn_escape l).map (pre ++ ·) := by
  induction pre with
  | nil =>
    simp only [List.nil_append]
    cases dns_to_ldap_dn_escape l <;> rfl
  | cons c cs ih =>
    rw [List.all_cons, Bool.and_eq_true] at h
    rw [List.cons_append, conv_cons_safe (cs ++ l) h.1, ih h.2]
    cases dns_to_ldap_dn_escape l <;> rfl

/-- C1 (amended): an input consisting entirely of safe bytes
(`[A-Za-z0-9._-]`) is copied to the output unchanged; every accepted input
is rendered per `EscRendered`, i.e. each byte that is not a safe raw byte
— raw unsafe bytes and the resolved values of `\DDD` and `\X` master-file
escapes — appears in the output as a `\HH` hex escape; and a *truncated*
master-file escape (a backslash at the end of the input, or a `\D` escape
with fewer than three bytes after the backslash) fails with
`DNS_R_BADESCAPE`.  (Malformed but complete escapes are not rejected with
`BadEscape`: see the counterexample.) -/
theorem c1_dns_to_ldap_dn_escape :
    (∀ s : List Nat, s.all ldapSafeByte = true →
       dns_to_ldap_dn_escape s = .ok s) ∧
    (∀ s out : List Nat, dns_to_ldap_dn_escape s = .ok out →
       EscRendered s out) ∧
    (∀ pre : List Nat, pre.all ldapSafeByte = true →
       dns_to_ldap_dn_escape (pre ++ [92]) = .error .badEscape) ∧
    (∀ pre : List Nat, ∀ d : Nat, pre.all ldapSafeByte = true →
       cIsDigit d = true →
       dns_to_ldap_dn_escape (pre ++ [92, d]) = .error .badEscape) ∧
    (∀ pre : List Nat, ∀ d x : Nat, pre.all ldapSafeByte = true →
       cIsDigit d = true →
       dns_to_ldap_dn_escape (pre ++ [92, d, x]) = .error .badEscape) := by
  refine ⟨?_, dns_to_ldap_dn_escape_rendered, ?_, ?_, ?_⟩
  · intro s hs
    have h := conv_safe_append s [] hs
    rw [show dns_to_ldap_dn_escape ([] : List Nat) = .ok [] from rfl] at h
    simpa [Except.map] using h
  · intro pre hpre
    rw [conv_safe_append pre [92] hpre, conv_cons_backslash []]
    rfl
  · intro pre d hpre hd
    rw [conv_safe_append pre [92, d] hpre, conv_cons_backslash [d]]
    simp [dnsEscapeSeq, hd, Except.map]
  · intro pre d x hpre hd
    rw [conv_safe_append pre [92, d, x] hpre, conv_cons_backslash [d, x]]
    simp [dnsEscapeSeq, hd, Except.map]

/-- Witness for `c1_dns_to_ldap_dn_escape`: the safe input `a.b` is copied
verbatim; `a\` (backslash at end), `\1` and `\12` (incomplete decimal
escapes) fail with `BadEscape`; and the accepted input `,` (comma, unsafe)
is rendered as the hex escape `\2c`. -/
theorem c1_dns_to_ldap_dn_escape_witness :
    dns_to_ldap_dn_escape [97, 46, 98] = .ok [97, 46, 98] ∧
    dns_to_ldap_dn_escape [97, 92] = .error .badEscape ∧
    dns_to_ldap_dn_escape [92, 49] = .error .badEscape ∧
    dns_to_ldap_dn_escape [92, 49, 58] = .error .badEscape ∧
    EscRendered [44] [92, 50, 99] :=
  ⟨c1_dns_to_ldap_dn_escape.1 [97, 46, 98] (by decide),
   c1_dns_to_ldap_dn_escape.2.2.1 [97] (by decide),
   c1_dns_to_ldap_dn_escape.2.2.2.1 [] 49 (by decide) (by decide),
   c1_dns_to_ldap_dn_escape.2.2.2.2 [] 49 58 (by decide) (by decide),
   c1_dns_to_ldap_dn_escape.2.1 [44] [92, 50, 99] (by rfl)⟩

/-- C1 counterexample: the *malformed* master-file escape `\0:1` (the second
byte `:` is not a digit, so this is not a valid `\DDD` escape) does not
make the conversion fail with `BadEscape`; the bytes after the backslash
are used without a digit check, the value computed is
`100*0 + 10*(':'-'0') + ('1'-'0') = 101`, and the conversion silently
produces the output `\65`. -/
theorem c1_counterexample :
    dns_to_ldap_dn_escape [92, 48, 58, 49] = .ok [92, 54, 53] ∧
    dns_to_ldap_dn_escape [92, 48, 58, 49] ≠ .error .badEscape := by
  constructor
  · rfl
  · intro hcontra
    rw [show dns_to_ldap_dn_escape [92, 48, 58, 49] = .ok [92, 54, 53] from rfl]
      at hcontra
    cases hcontra

/-! ## PTR synchronization pre-validation (`ldap_sync_ptr_validate`,
`ldap_sync_ptr`, ldap_helper.c)

DNS names here are opaque values with an absoluteness flag
(`dns_name_equal` / `dns_name_isabsolute`).  The content of the node at the
reverse name is the result of `ldapdb_rdatalist_get`: a list of rdata
lists, each carrying its RR type and its rdata values (for PTR, the target
names). -/

/-- An opaque DNS name as compared by `dns_name_equal`, with its
`dns_name_isabsolute` flag. -/
structure DnsName where
  id : Nat
  absolute : Bool
deriving DecidableEq, Repr

/-- Numeric value of `dns_rdatatype_ptr`. -/
def dns_rdatatype_ptr : Nat := 12

/-- One `dns_rdatalist_t` at the reverse name: RR type plus rdata values
(modelled as the target names they carry). -/
structure RdList where
  rdtype : Nat
  rdata : List DnsName
deriving DecidableEq, Repr

/-- Result of `ldapdb_rdatalist_get` for the reverse name. -/
inductive GetResult
  | success (rdlists : List RdList)
  | notFound
  | failure
deriving DecidableEq, Repr

/-- Direction of the PTR operation (`LDAP_MOD_ADD` / `LDAP_MOD_DELETE`);
`ldap_sync_ptr_validate` REQUIREs one of these two. -/
inductive PtrModOp
  | add
  | del
deriving DecidableEq, Repr

/-- Decision part of `ldap_sync_ptr_validate` once the PTR lookup has been
classified: `ptrTarget` is the single PTR target when exactly one PTR
rdata exists, `rdlists` is the node content.  Returns the result code and
the `delete_node` flag. -/
def syncPtrValidateCore (a : DnsName) (rdlists : List RdList)
    (ptrTarget : Option DnsName) (op : PtrModOp) : RCode × Bool :=
  match op with
  | .del =>
    match ptrTarget with
    | none => (.ignore, false)
    | some t =>
      if ¬ (a.absolute && t.absolute && decide (t = a)) = true then
        (.unexpectedToken, false)
      else if rdlists.length = 1 then (.success, true)
      else (.success, false)
  | .add =>
    match ptrTarget with
    | none => (.success, false)
    | some t =>
      if (a.absolute && t.absolute && decide (t = a)) = true then
        (.ignore, false)
      else (.singleton, false)

/-- Model of `ldap_sync_ptr_validate(inst, a_name, a_name_str, ptr_name,
mod_op, delete_node)`.  The PTR lookup errors propagate; a node whose PTR
rdata list carries more than one value fails with `NOTIMPLEMENTED`; a node
without a PTR value counts as "no PTR found". -/
def ldap_sync_ptr_validate (a : DnsName) (lookup : GetResult) (op : PtrModOp) :
    RCode × Bool :=
  match lookup with
  | .failure => (.failure, false)
  | .notFound => syncPtrValidateCore a [] none op
  | .success rdlists =>
    match rdlists.find? (fun l => l.rdtype == dns_rdatatype_ptr) with
    | none => syncPtrValidateCore a rdlists none op
    | some pl =>
      match pl.rdata with
      | [] => syncPtrValidateCore a rdlists none op
      | [t] => syncPtrValidateCore a rdlists (some t) op
      | _ :: _ :: _ => (.notImplemented, false)

/-- Outcome of `ldap_sync_ptr` after the validation step: `ISC_R_IGNORE`
becomes silent success without any directory modification, `ISC_R_SUCCESS`
proceeds to the PTR modification (carrying `delete_node`), and any other
validation result aborts the update with `DNS_R_SERVFAIL`. -/
inductive SyncPtrStep
  | skipSuccess
  | proceed (deleteNode : Bool)
  | fail (r : RCode)
deriving DecidableEq, Repr

/-- Model of the post-validation dispatch in `ldap_sync_ptr`. -/
def ldap_sync_ptr_decision (a : DnsName) (lookup : GetResult) (op : PtrModOp) :
    SyncPtrStep :=
  let v := ldap_sync_ptr_validate a lookup op
  if v.1 = .ignore then .skipSuccess
  else if v.1 = .success then .proceed v.2
  else .fail .servFail

/-- C5: PTR-sync pre-validation satisfies: on an add, an existing PTR whose
target equals the A/AAAA owner makes the operation be skipped as success,
and an existing PTR with a different target fails with `DNS_R_SINGLETON`;
on a delete, a missing PTR is skipped as success, a PTR target different
from the owner fails with `ISC_R_UNEXPECTEDTOKEN`, and a single matching
PTR that is the node's only record proceeds with `delete_node = true`
(a matching PTR on a node with other records proceeds with
`delete_node = false`). -/
theorem c5_ldap_sync_ptr_validate
    (a t : DnsName) (rest : List RdList) (extra : List DnsName)
    (ha : a.absolute = true) (ht : t.absolute = true) :
    (t = a →
      ldap_sync_ptr_validate a (.success (⟨dns_rdatatype_ptr, [t]⟩ :: rest)) .add =
        (.ignore, false) ∧
      ldap_sync_ptr_decision a (.success (⟨dns_rdatatype_ptr, [t]⟩ :: rest)) .add =
        .skipSuccess) ∧
    (t ≠ a →
      ldap_sync_ptr_validate a (.success (⟨dns_rdatatype_ptr, [t]⟩ :: rest)) .add =
        (.singleton, false)) ∧
    (ldap_sync_ptr_validate a .notFound .del = (.ignore, false) ∧
      ldap_sync_ptr_decision a .notFound .del = .skipSuccess) ∧
    (t ≠ a →
      ldap_sync_ptr_validate a (.success (⟨dns_rdatatype_ptr, [t]⟩ :: rest)) .del =
        (.unexpectedToken, false)) ∧
    (t = a →
      ldap_sync_ptr_validate a (.success [⟨dns_rdatatype_ptr, [t]⟩]) .del =
        (.success, true) ∧
      ldap_sync_ptr_decision a (.success [⟨dns_rdatatype_ptr, [t]⟩]) .del =
        .proceed true) ∧
    (t = a →
      ldap_sync_ptr_validate a
          (.success [⟨dns_rdatatype_ptr, [t]⟩, ⟨1, extra⟩]) .del =
        (.success, false)) := by
  have hfind : ∀ r : List RdList,
      (RdList.mk dns_rdatatype_ptr [t] :: r).find?
          (fun l => l.rdtype == dns_rdatatype_ptr) =
        some ⟨dns_rdatatype_ptr, [t]⟩ := by
    intro r
    simp [List.find?]
  refine ⟨?_, ?_, ?_, ?_, ?_, ?_⟩
  · intro heq
    subst heq
    constructor
    · simp [ldap_sync_ptr_validate, hfind, syncPtrValidateCore, ha, ht]
    · simp [ldap_sync_ptr_decision, ldap_sync_ptr_validate, hfind,
        syncPtrValidateCore, ha, ht]
  · intro hne
    simp [ldap_sync_ptr_validate, hfind, syncPtrValidateCore, ha, ht, hne]
  · constructor
    · simp [ldap_sync_ptr_validate, syncPtrValidateCore]
    · simp [ldap_sync_ptr_decision, ldap_sync_ptr_validate, syncPtrValidateCore]
  · intro hne
    simp [ldap_sync_ptr_validate, hfind, syncPtrValidateCore, ha, ht, hne]
  · intro heq
    subst heq
    constructor
    · simp [ldap_sync_ptr_validate, hfind, syncPtrValidateCore, ha, ht]
    · simp [ldap_sync_ptr_decision, ldap_sync_ptr_validate, hfind,
        syncPtrValidateCore, ha, ht]
  · intro heq
    subst heq
    simp [ldap_sync_ptr_validate, hfind, syncPtrValidateCore, ha, ht]

/-- Witness for `c5_ldap_sync_ptr_validate` with owner name 1 and PTR
target names 1 (matching) and 2 (conflicting), both absolute. -/
theorem c5_ldap_sync_ptr_validate_witness :
    ldap_sync_ptr_decision ⟨1, true⟩
        (.success [⟨dns_rdatatype_ptr, [⟨1, true⟩]⟩]) .add = .skipSuccess ∧
    ldap_sync_ptr_validate ⟨1, true⟩
        (.success [⟨dns_rdatatype_ptr, [⟨2, true⟩]⟩]) .add = (.singleton, false) ∧
    ldap_sync_ptr_decision ⟨1, true⟩ .notFound .del = .skipSuccess ∧
    ldap_sync_ptr_validate ⟨1, true⟩
        (.success [⟨dns_rdatatype_ptr, [⟨2, true⟩]⟩]) .del =
      (.unexpectedToken, false) ∧
    ldap_sync_ptr_decision ⟨1, true⟩
        (.success [⟨dns_rdatatype_ptr, [⟨1, true⟩]⟩]) .del = .proceed true :=
  ⟨((c5_ldap_sync_ptr_validate ⟨1, true⟩ ⟨1, true⟩ [] [] rfl rfl).1 rfl).2,
   (c5_ldap_sync_ptr_validate ⟨1, true⟩ ⟨2, true⟩ [] [] rfl rfl).2.1 (by decide),
   (c5_ldap_sync_ptr_validate ⟨1, true⟩ ⟨2, true⟩ [] [] rfl rfl).2.2.1.2,
   (c5_ldap_sync_ptr_validate ⟨1, true⟩ ⟨2, true⟩ [] [] rfl rfl).2.2.2.1
     (by decide),
   ((c5_ldap_sync_ptr_validate ⟨1, true⟩ ⟨1, true⟩ [] [] rfl rfl).2.2.2.2.1
     rfl).2⟩

/-! ## Directory modification (`ldap_modify_do`, ldap_helper.c)

The LDAP server's answers are inputs of the model: for each pass we supply
the result of the modify (or whole-node delete) call and the result of the
fallback `ldap_add_ext_s` call (used only for an ADD against a missing
entry).  `handle_connection_error` is assumed to succeed (reconnection
works); the claim is about the retry/result logic. -/

/-- LDAP result codes the function distinguishes. -/
inductive LdapRC
  | ok
  | noSuchObject
  | noSuchAttribute
  | otherErr
deriving DecidableEq, Repr

/-- The modification kind taken from `mods[0]->mod_op` (ignoring
`LDAP_MOD_BVALUES`). -/
inductive LMod
  | modAdd
  | modDel
  | modReplace
deriving DecidableEq, Repr

/-- Server behaviour during one pass of `ldap_modify_do`: the result of the
modify/delete call and of the fallback add call. -/
structure LdapServerPass where
  modifyRes : LdapRC
  addRes : LdapRC
deriving DecidableEq, Repr

/-- Outcome of one pass through the operation body of `ldap_modify_do`. -/
inductive PassOutcome
  | passOk
  | failNoRetry
  | failRetry
deriving DecidableEq, Repr

/-- One pass of `ldap_modify_do`: run the operation; on an ADD failing with
`LDAP_NO_SUCH_OBJECT`, retry as `ldap_add_ext_s` with `objectClass=idnsRecord`
added; afterwards, a DELETE that failed with `LDAP_NO_SUCH_ATTRIBUTE`
skips the retry, anything else retries. -/
def ldap_modify_pass (op : LMod) (p : LdapServerPass) : PassOutcome :=
  if p.modifyRes = .ok then .passOk
  else if op = .modAdd ∧ p.modifyRes = .noSuchObject then
    if p.addRes = .ok then .passOk
    else if op = .modDel ∧ p.addRes = .noSuchAttribute then .failNoRetry
    else .failRetry
  else if op = .modDel ∧ p.modifyRes = .noSuchAttribute then .failNoRetry
  else .failRetry

/-- Result of `ldap_modify_do` together with how many times the operation
was sent to the server. -/
structure ModifyDoResult where
  result : RCode
  opAttempts : Nat
deriving DecidableEq, Repr

/-- Model of `ldap_modify_do(inst, dn, mods, delete_node)`.  `handleNull`
states that the pooled connection had a NULL handle, which sets `once`
before the first pass and therefore suppresses the retry.  Note that in the
`failNoRetry` case (DELETE of a nonexistent attribute) the C code skips the
retry but leaves `result = ISC_R_FAILURE` set at the failed
`ldap_modify_ext_s` call, despite the comment "do not error out if we are
trying to delete an unexisting attribute". -/
def ldap_modify_do (op : LMod) (handleNull : Bool) (p1 p2 : LdapServerPass) :
    ModifyDoResult :=
  match ldap_modify_pass op p1 with
  | .passOk => ⟨.success, 1⟩
  | .failNoRetry => ⟨.failure, 1⟩
  | .failRetry =>
    if handleNull then ⟨.failure, 1⟩
    else
      match ldap_modify_pass op p2 with
      | .passOk => ⟨.success, 2⟩
      | _ => ⟨.failure, 2⟩

/-- C6 (code bug): a DELETE whose target attribute does not exist
(`LDAP_NO_SUCH_ATTRIBUTE`) skips the retry as the claim and the code's own
comment say, but the function returns `ISC_R_FAILURE`, not success: the
`result` variable set at the failed modify call is never reset.  For
contrast, the last two conjuncts show the intended retry behaviour on
other failures: one retry after reconnection, and no third attempt. -/
theorem c6_ldap_modify_do_delete_noattr_returns_failure :
    ldap_modify_do .modDel false ⟨.noSuchAttribute, .ok⟩ ⟨.ok, .ok⟩ =
      ⟨.failure, 1⟩ ∧
    ldap_modify_do .modDel false ⟨.otherErr, .ok⟩ ⟨.ok, .ok⟩ = ⟨.success, 2⟩ ∧
    ldap_modify_do .modDel false ⟨.otherErr, .ok⟩ ⟨.otherErr, .ok⟩ =
      ⟨.failure, 2⟩ := by
  refine ⟨rfl, rfl, rfl⟩

/-! ## Zone forwarders (`configure_zone_forwarders` and the forwarding
prologue of `ldap_parse_master_zoneentry`, ldap_helper.c)

The model covers the zone case (`is_global_config == false`, i.e. the zone
name is not the root).  Forwarder values are pre-classified by whether
`acl_parse_forwarder` accepts them; valid ones carry an opaque address.
`dns_fwdtable_add`, `delete_forwarding_table` and `ldap_delete_zone2` are
assumed to succeed; the automatic-empty-zone shutdown is omitted (it does
not change the outcome fields modelled here). -/

/-- BIND forward policy plus the invented `none`. -/
inductive FwdPolicy
  | first
  | only
  | policyNone
deriving DecidableEq, Repr

/-- The `idnsForwardPolicy` attribute: absent (or with no value), a valid
value, or an unrecognized string. -/
inductive PolicyAttr
  | absent
  | valid (p : FwdPolicy)
  | invalid
deriving DecidableEq, Repr

/-- One `idnsForwarders` value, pre-classified by `acl_parse_forwarder`. -/
inductive FwdVal
  | valid (addr : Nat)
  | invalid
deriving DecidableEq, Repr

/-- The forwarding-related attributes of a zone entry. -/
structure ZoneFwdEntry where
  policyAttr : PolicyAttr
  forwarders : Option (List FwdVal)
deriving DecidableEq, Repr

/-- Addresses of the values `acl_parse_forwarder` accepts, in order. -/
def validForwarders (vs : List FwdVal) : List Nat :=
  vs.foldr (fun v acc => match v with | .valid a => a :: acc | .invalid => acc) []

/-- Outcome of `configure_zone_forwarders` for a zone: the returned result
code, the final forward-table entry for this zone name (`none` when the
entry was deleted or never present), and whether the view cache was
flushed. -/
structure CZFOut where
  result : RCode
  fwdTable : Option (List Nat × FwdPolicy)
  cacheFlushed : Bool
deriving DecidableEq, Repr

/-- Model of `configure_zone_forwarders(entry, inst, name)` for a non-root
zone name, given the current forward-table entry `old` for that exact name.
Mirrors the C control flow: policy parse (invalid value fails with
`UNEXPECTEDTOKEN`), `policy == none` ignores `idnsForwarders`, an absent or
empty forwarder list returns `ISC_R_DISABLED`, an entirely invalid list
fails with `UNEXPECTEDTOKEN`; otherwise the forward table is updated when
the new setting differs from the old and the result is `SUCCESS`
(`DISABLED` for policy `none`).  Error paths delete the forward-table
entry in the cleanup block, and the cache is flushed whenever the table
was deleted or updated. -/
def configure_zone_forwarders (e : ZoneFwdEntry)
    (old : Option (List Nat × FwdPolicy)) : CZFOut :=
  match e.policyAttr with
  | .invalid => ⟨.unexpectedToken, none, true⟩
  | pa =>
    let fwdpolicy := match pa with
      | .valid p => p
      | _ => .first
    let values : List FwdVal :=
      if fwdpolicy = .policyNone then [] else (e.forwarders).getD []
    if fwdpolicy ≠ .policyNone ∧ (e.forwarders = none ∨ e.forwarders = some []) then
      ⟨.disabled, none, true⟩
    else
      let addrs := validForwarders values
      if fwdpolicy ≠ .policyNone ∧ addrs = [] then ⟨.unexpectedToken, none, true⟩
      else
        let updateReq := old ≠ some (addrs, fwdpolicy)
        let res : RCode := if fwdpolicy = .policyNone then .disabled else .success
        if updateReq then ⟨res, some (addrs, fwdpolicy), true⟩
        else ⟨res, some (addrs, fwdpolicy), false⟩

/-- What the master-zone handler does with the result of
`configure_zone_forwarders` (ldap_helper.c:1851-1864): `SUCCESS` means
forwarding took over — delete the master zone and stop; any result other
than `ISC_R_DISABLED` stops processing; only `ISC_R_DISABLED` continues to
the master projection. -/
inductive MasterFwdStep
  | takeover (out : CZFOut)
  | continueAsMaster (out : CZFOut)
  | abort (out : CZFOut)
deriving DecidableEq, Repr

/-- Boolean test used to state the counterexample without binders. -/
def MasterFwdStep.isContinue : MasterFwdStep → Bool
  | .continueAsMaster _ => true
  | _ => false

/-- Model of the forwarding prologue of `ldap_parse_master_zoneentry`. -/
def master_zone_fwd_prologue (e : ZoneFwdEntry)
    (old : Option (List Nat × FwdPolicy)) : MasterFwdStep :=
  let out := configure_zone_forwarders e old
  if out.result = .disabled then .continueAsMaster out
  else if out.result = .success then .takeover out
  else .abort out

/-- C7 (amended): with a valid policy other than `none` and at least one
valid forwarder, the forward-table entry `(valid addresses, policy)` is
installed, the master zone is deleted and processing stops (takeover);
with an absent or empty forwarder list the entry is removed and processing
continues as a master zone; with policy `none` processing also continues
as a master zone but a *disabling* forward-table entry `([], none)` is
installed rather than removed; and with a non-empty but entirely invalid
forwarder list the entry is removed and processing fails with
`UNEXPECTEDTOKEN` — it does *not* continue as a master zone. -/
theorem c7_master_zone_forwarders
    (p : FwdPolicy) (vs : List FwdVal) (old : Option (List Nat × FwdPolicy))
    (hp : p ≠ .policyNone) :
    (validForwarders vs ≠ [] → vs ≠ [] →
      master_zone_fwd_prologue ⟨.valid p, some vs⟩ old =
        .takeover ⟨.success, some (validForwarders vs, p),
          decide (old ≠ some (validForwarders vs, p))⟩) ∧
    (master_zone_fwd_prologue ⟨.valid p, none⟩ old =
      .continueAsMaster ⟨.disabled, none, true⟩) ∧
    (master_zone_fwd_prologue ⟨.valid p, some []⟩ old =
      .continueAsMaster ⟨.disabled, none, true⟩) ∧
    (master_zone_fwd_prologue ⟨.valid .policyNone, some vs⟩ old =
      .continueAsMaster ⟨.disabled, some ([], .policyNone),
        decide (old ≠ some ([], .policyNone))⟩) ∧
    (validForwarders vs = [] → vs ≠ [] →
      master_zone_fwd_prologue ⟨.valid p, some vs⟩ old =
        .abort ⟨.unexpectedToken, none, true⟩) := by
  refine ⟨?_, ?_, ?_, ?_, ?_⟩
  · intro hv hvs
    unfold master_zone_fwd_prologue configure_zone_forwarders
    rcases p with _ | _ | _
    · by_cases hu : old = some (validForwarders vs, FwdPolicy.first) <;> simp_all
    · by_cases hu : old = some (validForwarders vs, FwdPolicy.only) <;> simp_all
    · exact absurd rfl hp
  · unfold master_zone_fwd_prologue configure_zone_forwarders
    rcases p with _ | _ | _ <;> simp_all
  · unfold master_zone_fwd_prologue configure_zone_forwarders
    rcases p with _ | _ | _ <;> simp_all
  · unfold master_zone_fwd_prologue configure_zone_forwarders
    by_cases hu : old = some (([] : List Nat), FwdPolicy.policyNone) <;>
      simp_all [validForwarders]
  · intro hv hvs
    unfold master_zone_fwd_prologue configure_zone_forwarders
    rcases p with _ | _ | _ <;> simp_all

/-- Witness for `c7_master_zone_forwarders` with policy `only`, one valid
forwarder address 53, and no pre-existing forward-table entry. -/
theorem c7_master_zone_forwarders_witness :
    master_zone_fwd_prologue ⟨.valid .only, some [.valid 53]⟩ none =
      .takeover ⟨.success, some ([53], .only), true⟩ ∧
    master_zone_fwd_prologue ⟨.valid .only, some []⟩ none =
      .continueAsMaster ⟨.disabled, none, true⟩ := by
  constructor
  · have h := (c7_master_zone_forwarders .only [.valid 53] none (by decide)).1
      (by decide) (by decide)
    simpa using h
  · exact (c7_master_zone_forwarders .only [] none (by decide)).2.2.1

/-- C7 counterexample: a master-zone entry with forward policy `first` and
a single invalid forwarder value.  The claim says processing should
continue as a master zone with the forward-table entry removed; the code
removes the entry but *aborts* the master-zone processing with
`ISC_R_UNEXPECTEDTOKEN` (the `result != ISC_R_DISABLED` branch at
ldap_helper.c:1852 jumps to cleanup).  Additionally, with policy `none`
the code installs a disabling entry instead of removing it. -/
theorem c7_counterexample :
    master_zone_fwd_prologue ⟨.valid .first, some [.invalid]⟩ none =
      .abort ⟨.unexpectedToken, none, true⟩ ∧
    (master_zone_fwd_prologue ⟨.valid .first, some [.invalid]⟩ none).isContinue
      = false ∧
    master_zone_fwd_prologue ⟨.valid .policyNone, none⟩ none =
      .continueAsMaster ⟨.disabled, some ([], .policyNone), true⟩ := by
  refine ⟨rfl, rfl, rfl⟩

/-! ## Delete-event classification (`syncrepl_update`, ldap_helper.c)

For a delete change-stream event whose DN is not the configured base, the
entry carries no `objectClass`, so `syncrepl_update` infers the class:
`Forward` when the derived entry name is in the forward register,
otherwise `Master` when the derived *origin* equals the DNS root (i.e. the
DN had exactly one `idnsName` component), otherwise `Record`.  The class
is then routed: `Master`/`Forward` → `update_zone`, `Record` →
`update_record`. -/

/-- The `ldap_entryclass_t` values relevant to delete events. -/
inductive EntryClass
  | master
  | forward
  | rr
deriving DecidableEq, Repr

/-- The task action chosen for a class. -/
inductive Handler
  | updateZone
  | updateRecord
deriving DecidableEq, Repr

/-- Model of the delete-event classification in `syncrepl_update`
(ldap_helper.c:4304-4324): derive `(entry_name, zone_name)` from the DN,
then `Forward` if `fwdr_zone_ispresent(entry_name)`, else `Master` if
`dns_name_equal(zone_name, dns_rootname)`, else `Record`. -/
def syncrepl_delete_class (dn : List RDN) (fwdRegister : List (List String)) :
    Except DnError EntryClass :=
  match dn_to_dnsname dn with
  | .error e => .error e
  | .ok (ename, zname) =>
    if ename ∈ fwdRegister then .ok .forward
    else if zname = [] then .ok .master
    else .ok .rr

/-- Modelled from the claim's words, for comparison with
`syncrepl_delete_class`: `Forward` if the derived name is present in the
forward register, `Master` when the derived name *equals a served zone's
origin*, and `Record` otherwise. -/
def claim_delete_class (dn : List RDN) (fwdRegister zoneOrigins : List (List String)) :
    Except DnError EntryClass :=
  match dn_to_dnsname dn with
  | .error e => .error e
  | .ok (ename, _) =>
    if ename ∈ fwdRegister then .ok .forward
    else if ename ∈ zoneOrigins then .ok .master
    else .ok .rr

/-- Routing of the class to its handler (ldap_helper.c:4353-4360). -/
def handler_for_class : EntryClass → Handler
  | .master => .updateZone
  | .forward => .updateZone
  | .rr => .updateRecord

/-- C8 (amended): the dispatcher classifies a deleted entry as `Forward`
when the derived name is in the forward register; as `Master` when the DN
carried exactly one `idnsName` component, i.e. the derived origin is the
DNS root — *not* when the derived name equals a served zone's origin; and
as `Record` otherwise; `Master` and `Forward` are routed to the zone
handler (`update_zone`) and `Record` to the record handler
(`update_record`). -/
theorem c8_syncrepl_delete_classification
    (dn : List RDN) (fwdRegister : List (List String))
    (ename zname : List String)
    (hok : dn_to_dnsname dn = .ok (ename, zname)) :
    (ename ∈ fwdRegister →
      syncrepl_delete_class dn fwdRegister = .ok .forward) ∧
    (ename ∉ fwdRegister → zname = [] →
      syncrepl_delete_class dn fwdRegister = .ok .master) ∧
    (ename ∉ fwdRegister → zname ≠ [] →
      syncrepl_delete_class dn fwdRegister = .ok .rr) ∧
    handler_for_class .master = .updateZone ∧
    handler_for_class .forward = .updateZone ∧
    handler_for_class .rr = .updateRecord := by
  refine ⟨?_, ?_, ?_, rfl, rfl, rfl⟩
  · intro hf
    unfold syncrepl_delete_class
    rw [hok]
    simp [hf]
  · intro hf hz
    unfold syncrepl_delete_class
    rw [hok]
    simp [hf, hz]
  · intro hf hz
    unfold syncrepl_delete_class
    rw [hok]
    simp [hf, hz]

/-- Witness for `c8_syncrepl_delete_classification` on the one-component DN
`idnsName=example.com.` (classified `Master`), the same DN with
`example.com.` in the forward register (classified `Forward`), and the
two-component DN `idnsName=host, idnsName=example.com.` (classified
`Record`). -/
theorem c8_syncrepl_delete_classification_witness :
    syncrepl_delete_class [⟨"idnsName", ⟨["example", "com"], true⟩, true⟩] [] =
      .ok .master ∧
    syncrepl_delete_class [⟨"idnsName", ⟨["example", "com"], true⟩, true⟩]
        [["example", "com"]] = .ok .forward ∧
    syncrepl_delete_class
        [⟨"idnsName", ⟨["host"], false⟩, true⟩,
         ⟨"idnsName", ⟨["example", "com"], true⟩, true⟩] [] = .ok .rr := by
  refine ⟨?_, ?_, ?_⟩
  · exact (c8_syncrepl_delete_classification
      [⟨"idnsName", ⟨["example", "com"], true⟩, true⟩] []
      ["example", "com"] [] (by rfl)).2.1 (by simp) rfl
  · exact (c8_syncrepl_delete_classification
      [⟨"idnsName", ⟨["example", "com"], true⟩, true⟩] [["example", "com"]]
      ["example", "com"] [] (by rfl)).1 (by simp)
  · exact (c8_syncrepl_delete_classification
      [⟨"idnsName", ⟨["host"], false⟩, true⟩,
       ⟨"idnsName", ⟨["example", "com"], true⟩, true⟩] []
      ["host", "example", "com"] ["example", "com"] (by rfl)).2.2.1
      (by simp) (by simp)

/-- C8 counterexample: a delete event for the one-component DN
`idnsName=other.test.` while the forward register is empty and the only
served zone is `example.com.`.  The derived name `other.test.` does not
equal any served zone's origin, so the claim classifies the entry as
`Record`; the code classifies it as `Master` because the derived origin is
the DNS root.  (Conversely the code never compares against the zone
register here.) -/
theorem c8_counterexample :
    syncrepl_delete_class [⟨"idnsName", ⟨["other", "test"], true⟩, true⟩] [] =
      .ok .master ∧
    claim_delete_class [⟨"idnsName", ⟨["other", "test"], true⟩, true⟩] []
        [["example", "com"]] = .ok .rr ∧
    (EntryClass.master ≠ EntryClass.rr) := by
  refine ⟨rfl, by simp [claim_delete_class, dn_to_dnsname, dns_name_fromtext,
    isIdnsNameAttr, asciiLower], by decide⟩

/-! ## Zone projector serial semantics (`diff_ldap_rbtdb`,
`diff_analyze_serial`, `update_soa_serial`, `ldap_replace_serial` and the
serial-handling part of `ldap_parse_master_zoneentry`, ldap_helper.c)

Rdata are modelled as either an SOA (serial plus the remaining fields
collapsed into an opaque `rest`, which is what
`dns_rdata_compare` after `dns_soa_setserial` compares) or a non-SOA
record (opaque type and data).  The origin node's rdatasets and the parsed
entry's rdata lists are flattened to rdata lists; name, class and TTL are
uniform at the zone apex diff and are omitted. -/

/-- One rdata at the zone origin. -/
inductive RData
  | soa (serial : Nat) (rest : Nat)
  | other (typ : Nat) (data : Nat)
deriving DecidableEq, Repr

/-- Whether the rdata has type SOA. -/
def RData.isSOA : RData → Bool
  | .soa _ _ => true
  | .other _ _ => false

/-- Model of `dns_soa_setserial` on an rdata (identity on non-SOA). -/
def RData.setSerial : RData → Nat → RData
  | .soa _ r, s => .soa s r
  | x, _ => x

/-- Diff tuple operation (`DNS_DIFFOP_DEL` / `DNS_DIFFOP_ADD`). -/
inductive DiffOp
  | opAdd
  | opDel
deriving DecidableEq, Repr

/-- One `dns_difftuple_t` of the origin-node diff. -/
structure DiffTuple where
  op : DiffOp
  rdata : RData
deriving DecidableEq, Repr

/-- Model of `dns_diff_appendminimal`: look for the first existing tuple
with the same rdata (name and TTL are uniform here); same operation
replaces (move to the end), opposite operations cancel, no match appends. -/
def dns_diff_appendminimal (diff : List DiffTuple) (t : DiffTuple) :
    List DiffTuple :=
  match diff.find? (fun ot => decide (ot.rdata = t.rdata)) with
  | some ot => if ot.op = t.op then (diff.erase ot) ++ [t] else diff.erase ot
  | none => diff ++ [t]

/-- Model of `rdataset_to_diff` / `rdatalist_to_diff`: append every rdata
as a tuple with the given operation, minimally. -/
def rds_to_diff (op : DiffOp) (rs : List RData) (diff : List DiffTuple) :
    List DiffTuple :=
  rs.foldl (fun d r => dns_diff_appendminimal d ⟨op, r⟩) diff

/-- Model of `diff_ldap_rbtdb`: DEL tuples for the database content first,
then ADD tuples for the LDAP content, with minimal-diff cancellation. -/
def diff_ldap_rbtdb (db ldap : List RData) : List DiffTuple :=
  rds_to_diff .opAdd ldap (rds_to_diff .opDel db [])

/-- Loop state of `diff_analyze_serial`: `dataChanged`, the last added SOA
(serial, rest), and the pending deleted SOA awaiting its matching add. -/
structure AnalyzeState where
  dataChanged : Bool
  soaLatest : Option (Nat × Nat)
  delSoa : Option (Nat × Nat)
deriving DecidableEq, Repr

/-- One iteration of the `diff_analyze_serial` loop; `none` models an
INSIST failure (unpaired SOA operations). -/
def diff_analyze_step (st : AnalyzeState) (t : DiffTuple) : Option AnalyzeState :=
  match t.rdata with
  | .other _ _ => some { st with dataChanged := true }
  | .soa s r =>
    match t.op with
    | .opDel =>
      match st.delSoa with
      | some _ => none
      | none => some { st with delSoa := some (s, r) }
    | .opAdd =>
      match st.delSoa with
      | none => some { dataChanged := true, soaLatest := some (s, r), delSoa := none }
      | some (_, dr) =>
        some { dataChanged := st.dataChanged || decide (dr ≠ r),
               soaLatest := some (s, r), delSoa := none }

/-- Model of `diff_analyze_serial(diff, soa_latest, data_changed)`:
`none` models a failed INSIST (a deleted SOA without a following added
SOA, or two deletions in a row). -/
def diff_analyze_serial (diff : List DiffTuple) :
    Option (Bool × Option (Nat × Nat)) :=
  (diff.foldlM diff_analyze_step ⟨false, none, none⟩).bind fun st =>
    match st.delSoa with
    | some _ => none
    | none => some (st.dataChanged, st.soaLatest)

/-- The SOA of the database origin node (first SOA rdata), as read by
`dns_db_createsoatuple`. -/
def dns_db_getsoa (db : List RData) : Option (Nat × Nat) :=
  match db.find? RData.isSOA with
  | some (.soa s r) => some (s, r)
  | _ => none

/-- Model of `dns_db_getsoaserial`. -/
def dns_db_getsoaserial (db : List RData) : Option Nat :=
  (dns_db_getsoa db).map (·.1)

/-- Whether a tuple is an ADD of an SOA rdata. -/
def isAddSOA (t : DiffTuple) : Bool := decide (t.op = .opAdd) && t.rdata.isSOA

/-- Replace the serial of the first ADD-SOA tuple of a list (worker for
`rewriteLastAddSOA`, operating on the reversed diff). -/
def setAddSOASerialFirst (s : Nat) : List DiffTuple → List DiffTuple
  | [] => []
  | t :: rest =>
    if isAddSOA t then ⟨t.op, t.rdata.setSerial s⟩ :: rest
    else t :: setAddSOASerialFirst s rest

/-- Model of `update_soa_serial` applied through the `soa_tuple` pointer:
`soa_tuple` is the *last* ADD-SOA tuple of the diff, and its serial is
overwritten in place. -/
def rewriteLastAddSOA (diff : List DiffTuple) (s : Nat) : List DiffTuple :=
  (setAddSOASerialFirst s diff.reverse).reverse

/-- Serial and rest of the last ADD-SOA tuple of a diff: this is the SOA
that ends up in the database when the diff is applied. -/
def lastAddSOA (diff : List DiffTuple) : Option (Nat × Nat) :=
  match diff.reverse.find? isAddSOA with
  | some ⟨_, .soa s r⟩ => some (s, r)
  | _ => none

/-- Outcome of the serial-handling part of `ldap_parse_master_zoneentry`. -/
structure ProjResult where
  finalDiff : List DiffTuple
  writeback : Option Nat
  dataChanged : Bool
  journal : Bool
  applied : Bool
deriving DecidableEq, Repr

/-- Model of ldap_helper.c:1956-2047 — the serial semantics of the master
zone projector: read the current serial (existing zones only), analyze the
diff, then (a) synthesize a DEL/ADD SOA pair with a bumped serial and
write the serial back when data changed (or during resynchronization) with
no SOA tuple present, (b) rewrite the ADD-SOA serial in place and write it
back when the zone is fresh, the sync state is not Finished, or the new
serial is not serial-greater than the current one, (c) keep the diff's own
serial otherwise, and (d) with no data change, discard the whole diff when
it would move the serial backwards.  The diff is applied and journalled
only when non-empty; the journal needs a finished sync state and an
existing zone. -/
def ldap_parse_master_zoneentry_serial (db : List RData)
    (diff : List DiffTuple) (newZone syncFinished : Bool) (now : Nat) :
    Option ProjResult := do
  let curr ← if newZone then some 0 else dns_db_getsoaserial db
  let (dataChanged, soaLatest) ← diff_analyze_serial diff
  let (finalDiff, writeback) ←
    if dataChanged || !syncFinished then
      match soaLatest with
      | none => do
        let (cs, cr) ← dns_db_getsoa db
        let s := dns_update_soaserial cs now
        let d1 := dns_diff_appendminimal diff ⟨.opDel, .soa cs cr⟩
        let d2 := dns_diff_appendminimal d1 ⟨.opAdd, .soa s cr⟩
        some (d2, some s)
      | some (a, _) =>
        if newZone || !syncFinished || isc_serial_le a curr then
          some (rewriteLastAddSOA diff (dns_update_soaserial a now),
                some (dns_update_soaserial a now))
        else some (diff, none)
    else
      match soaLatest with
      | none => if diff.isEmpty then some (diff, none) else none
      | some (a, _) =>
        if isc_serial_le a curr then some (([] : List DiffTuple), none)
        else some (diff, none)
  some { finalDiff := finalDiff, writeback := writeback,
         dataChanged := dataChanged,
         journal := !finalDiff.isEmpty && syncFinished && !newZone,
         applied := !finalDiff.isEmpty }

/-- Model of `dns_diff_apply` on the origin node content. -/
def dns_diff_apply (diff : List DiffTuple) (db : List RData) : List RData :=
  diff.foldl (fun acc t =>
    match t.op with
    | .opDel => acc.erase t.rdata
    | .opAdd => acc ++ [t.rdata]) db

/-- Effect of the `ldap_replace_serial` write-back on the LDAP entry's
rdata: only `idnsSOAserial` changes. -/
def setSOASerial (l : List RData) (s : Nat) : List RData :=
  l.map (·.setSerial s)

/-- C3 counterexample: an existing zone (`sync_state = Finished`) whose
database SOA serial is 100, whose LDAP entry carries SOA serial 50 plus a
real data change, projected when the unix time is 10 (a clock behind the
serials).  The rewrite branch produces serial 51 = 50 + 1, which is applied
and written back but is *not* strictly greater than the prior serial 100,
neither as a plain number nor in RFC 1982 serial order. -/
theorem c3_counterexample :
    ldap_parse_master_zoneentry_serial [.soa 100 0, .other 1 5]
        [⟨.opDel, .soa 100 0⟩, ⟨.opAdd, .soa 50 0⟩, ⟨.opDel, .other 1 5⟩]
        false true 10 =
      some ⟨[⟨.opDel, .soa 100 0⟩, ⟨.opAdd, .soa 51 0⟩, ⟨.opDel, .other 1 5⟩],
            some 51, true, true, true⟩ ∧
    dns_db_getsoaserial [.soa 100 0, .other 1 5] = some 100 ∧
    isc_serial_gt 51 100 = false ∧
    ¬ (51 : Nat) > 100 := by
  refine ⟨by decide, by decide, by decide, by decide⟩

/-- C4 counterexample: an existing zone during resynchronization
(`sync_state ≠ Finished`) whose computed minimal diff is exactly a
DEL-SOA(5)/ADD-SOA(3) pair — no change other than SOA, and the serial does
not move strictly forward.  The claim requires the diff to be discarded
with no application and no write-back, but the code rewrites the serial
(to `now = 100`), applies the diff, and writes the serial back. -/
theorem c4_counterexample :
    diff_ldap_rbtdb [.soa 5 0] [.soa 3 0] =
      [⟨.opDel, .soa 5 0⟩, ⟨.opAdd, .soa 3 0⟩] ∧
    isc_serial_gt 3 5 = false ∧
    ldap_parse_master_zoneentry_serial [.soa 5 0]
        [⟨.opDel, .soa 5 0⟩, ⟨.opAdd, .soa 3 0⟩] false false 100 =
      some ⟨[⟨.opDel, .soa 5 0⟩, ⟨.opAdd, .soa 100 0⟩], some 100, false,
            false, true⟩ := by
  refine ⟨by decide, by decide, by decide⟩

/-- The (serial, rest) pair carried by an ADD-SOA tuple. -/
def addSOAPair (t : DiffTuple) : Option (Nat × Nat) :=
  match t with
  | ⟨.opAdd, .soa s r⟩ => some (s, r)
  | _ => none

/-- Helper: a tuple that is not an ADD-SOA carries no pair. -/
theorem addSOAPair_eq_none {t : DiffTuple} (h : isAddSOA t = false) :
    addSOAPair t = none := by
  obtain ⟨op, rd⟩ := t
  cases op <;> cases rd <;> simp_all [isAddSOA, addSOAPair, RData.isSOA]

/-- Helper: unfolding `lastAddSOA` over a cons cell. -/
theorem lastAddSOA_cons (t : DiffTuple) (rest : List DiffTuple) :
    lastAddSOA (t :: rest) =
      match lastAddSOA rest with
      | some p => some p
      | none => addSOAPair t := by
  unfold lastAddSOA
  rw [List.reverse_cons, List.find?_append]
  cases hf : rest.reverse.find? isAddSOA with
  | some x =>
    have hx := List.find?_some hf
    obtain ⟨op, rd⟩ := x
    cases op <;> cases rd <;>
      simp_all [isAddSOA, RData.isSOA, Option.or]
  | none =>
    obtain ⟨op, rd⟩ := t
    cases op <;> cases rd <;>
      simp [List.find?, isAddSOA, RData.isSOA, addSOAPair, Option.or]

/-- Helper: the state's `soaLatest` after one analyzer step. -/
theorem analyze_step_latest {st st' : AnalyzeState} {t : DiffTuple}
    (h : diff_analyze_step st t = some st') :
    st'.soaLatest = match addSOAPair t with
      | some p => some p
      | none => st.soaLatest := by
  obtain ⟨op, rd⟩ := t
  cases rd with
  | other ty d =>
    simp only [diff_analyze_step] at h
    cases h
    cases op <;> rfl
  | soa s r =>
    cases op with
    | opAdd =>
      simp only [diff_analyze_step] at h
      rcases hd : st.delSoa with _ | ⟨ds, dr⟩ <;> rw [hd] at h <;> cases h <;> rfl
    | opDel =>
      simp only [diff_analyze_step] at h
      rcases hd : st.delSoa with _ | p <;> rw [hd] at h
      · cases h
        rfl
      · cases h

/-- Helper: the analyzer fold tracks the last ADD-SOA tuple in `soaLatest`. -/
theorem analyze_fold_latest (diff : List DiffTuple) :
    ∀ st res : AnalyzeState,
      diff.foldlM diff_analyze_step st = some res →
      res.soaLatest = match lastAddSOA diff with
        | some p => some p
        | none => st.soaLatest := by
  induction diff with
  | nil =>
    intro st res h
    cases h
    rfl
  | cons t rest ih =>
    intro st res h
    rw [List.foldlM_cons] at h
    cases hs : diff_analyze_step st t with
    | none => rw [hs] at h; cases h
    | some st' =>
      rw [hs] at h
      simp only [Option.bind_eq_bind, Option.some_bind] at h
      have h1 := ih st' res h
      have h2 := analyze_step_latest hs
      rw [lastAddSOA_cons]
      cases hlr : lastAddSOA rest with
      | some p =>
        rw [hlr] at h1
        exact h1
      | none =>
        rw [hlr] at h1
        exact h1.trans h2

/-- Helper: a list without ADD-SOA tuples has no last ADD-SOA. -/
theorem lastAddSOA_eq_none_iff (l : List DiffTuple) :
    lastAddSOA l = none ↔ ∀ t ∈ l, isAddSOA t = false := by
  constructor
  · intro h t ht
    cases hc : isAddSOA t
    · rfl
    · exfalso
      unfold lastAddSOA at h
      cases hf : l.reverse.find? isAddSOA with
      | none =>
        have := List.find?_eq_none.mp hf t (List.mem_reverse.mpr ht)
        simp [hc] at this
      | some x =>
        rw [hf] at h
        have hx := List.find?_some hf
        obtain ⟨op, rd⟩ := x
        cases op <;> cases rd <;> simp_all [isAddSOA, RData.isSOA]
  · intro h
    unfold lastAddSOA
    cases hf : l.reverse.find? isAddSOA with
    | none => rfl
    | some x =>
      have hx := List.find?_some hf
      have hmem : x ∈ l := List.mem_reverse.mp (List.mem_of_find?_eq_some hf)
      rw [h x hmem] at hx
      cases hx

/-- Helper: if the analyzer fold succeeds, ends with no pending deleted
SOA, and the diff contains no ADD-SOA tuple, then it also started with no
pending deleted SOA and the diff contains no SOA tuple at all. -/
theorem analyze_fold_noadd (diff : List DiffTuple) :
    ∀ st res : AnalyzeState,
      diff.foldlM diff_analyze_step st = some res →
      res.delSoa = none →
      (∀ u ∈ diff, isAddSOA u = false) →
      st.delSoa = none ∧ ∀ t ∈ diff, t.rdata.isSOA = false := by
  induction diff with
  | nil =>
    intro st res h hres _
    cases h
    exact ⟨hres, by simp⟩
  | cons t rest ih =>
    intro st res h hres hfree
    rw [List.foldlM_cons] at h
    cases hs : diff_analyze_step st t with
    | none => rw [hs] at h; cases h
    | some st' =>
      rw [hs] at h
      simp only [Option.bind_eq_bind, Option.some_bind] at h
      have hfree' : ∀ u ∈ rest, isAddSOA u = false := by
        intro u hu
        exact hfree u (List.mem_cons_of_mem t hu)
      obtain ⟨hst', hrest⟩ := ih st' res h hres hfree'
      obtain ⟨op, rd⟩ := t
      cases rd with
      | other ty d =>
        simp only [diff_analyze_step] at hs
        cases hs
        refine ⟨by simpa using hst', ?_⟩
        intro u hu
        rcases List.mem_cons.mp hu with hu | hu
        · subst hu; rfl
        · exact hrest u hu
      | soa s r =>
        cases op with
        | opAdd => exact absurd (hfree ⟨.opAdd, .soa s r⟩ (by simp)) (by simp [isAddSOA, RData.isSOA])
        | opDel =>
          simp only [diff_analyze_step] at hs
          rcases hd : st.delSoa with _ | p <;> rw [hd] at hs
          · cases hs
            exact absurd hst' (by simp)
          · cases hs

/-- Helper: decomposition of a successful `diff_analyze_serial` run into
its final fold state. -/
theorem diff_analyze_serial_spec {diff : List DiffTuple} {dc : Bool}
    {latest : Option (Nat × Nat)}
    (h : diff_analyze_serial diff = some (dc, latest)) :
    ∃ st : AnalyzeState,
      diff.foldlM diff_analyze_step ⟨false, none, none⟩ = some st ∧
      st.delSoa = none ∧ st.dataChanged = dc ∧ st.soaLatest = latest := by
  unfold diff_analyze_serial at h
  cases hf : diff.foldlM diff_analyze_step ⟨false, none, none⟩ with
  | none => rw [hf] at h; cases h
  | some st =>
    rw [hf] at h
    simp only [Option.some_bind] at h
    cases hd : st.delSoa with
    | some q =>
      rw [hd] at h
      cases h
    | none =>
      rw [hd] at h
      refine ⟨st, rfl, hd, ?_, ?_⟩ <;> cases h <;> rfl

/-- Helper: when `diff_analyze_serial` reports no latest SOA, the diff
contains no SOA tuple at all. -/
theorem diff_analyze_serial_no_soa {diff : List DiffTuple} {dc : Bool}
    (h : diff_analyze_serial diff = some (dc, none)) :
    ∀ t ∈ diff, t.rdata.isSOA = false := by
  obtain ⟨st, hf, hd, hdc, hlat0⟩ := diff_analyze_serial_spec h
  have hlat := analyze_fold_latest diff _ _ hf
  have hnone : lastAddSOA diff = none := by
    cases hlr : lastAddSOA diff with
    | none => rfl
    | some p =>
      rw [hlr] at hlat
      rw [hlat0] at hlat
      cases hlat
  have hfree := (lastAddSOA_eq_none_iff diff).mp hnone
  exact (analyze_fold_noadd diff _ _ hf hd hfree).2

/-- Helper: if the analyzer reports a latest SOA, it is the diff's last
ADD-SOA tuple. -/
theorem diff_analyze_serial_latest {diff : List DiffTuple} {dc : Bool}
    {p : Nat × Nat} (h : diff_analyze_serial diff = some (dc, some p)) :
    lastAddSOA diff = some p := by
  obtain ⟨st, hf, hd, hdc, hlat0⟩ := diff_analyze_serial_spec h
  have hlat := analyze_fold_latest diff _ _ hf
  cases hlr : lastAddSOA diff with
  | none =>
    rw [hlr] at hlat
    rw [hlat0] at hlat
    cases hlat
  | some q =>
    rw [hlr] at hlat
    rw [hlat0] at hlat
    cases hlat
    rfl

/-- Helper: `dns_diff_appendminimal` appends when nothing matches. -/
theorem dns_diff_appendminimal_no_match {diff : List DiffTuple}
    {t : DiffTuple} (h : ∀ ot ∈ diff, ot.rdata ≠ t.rdata) :
    dns_diff_appendminimal diff t = diff ++ [t] := by
  unfold dns_diff_appendminimal
  have : diff.find? (fun ot => decide (ot.rdata = t.rdata)) = none := by
    rw [List.find?_eq_none]
    intro x hx
    simpa using h x hx
  rw [this]

/-- Helper: the serial distance only depends on the operands mod 2^32. -/
theorem serialDist_mod_left (a b : Nat) : serialDist (a % U32) b = serialDist a b := by
  unfold serialDist
  rw [Nat.mod_mod_of_dvd _ (dvd_refl U32)]

/-- Helper: `isc_serial_gt` only depends on its first operand mod 2^32. -/
theorem isc_serial_gt_mod_left (a b : Nat) :
    isc_serial_gt (a % U32) b = isc_serial_gt a b := by
  unfold isc_serial_gt
  rw [serialDist_mod_left]

/-- Helper: the unixtime update method returns the clock when it is
nonzero mod 2^32 and serial-greater than the serial. -/
theorem dns_update_soaserial_eq_now {serial now : Nat}
    (h0 : now % U32 ≠ 0) (hgt : isc_serial_gt now serial = true) :
    dns_update_soaserial serial now = now % U32 := by
  unfold dns_update_soaserial
  rw [if_pos ⟨h0, hgt⟩]

/-- Helper: incomparability aside, `¬ le` gives `gt` — provided the two
values are serial-comparable. -/
theorem isc_serial_gt_of_not_le {a b : Nat}
    (hcomp : isc_serial_gt a b = true ∨ isc_serial_le a b = true)
    (hnle : ¬ isc_serial_le a b = true) : isc_serial_gt a b = true := by
  rcases hcomp with h | h
  · exact h
  · exact absurd h hnle

/-- Helper: run of the projector in the synthesis branch (data changed or
resynchronizing, no SOA tuple in the diff): a DEL/ADD SOA pair with a
bumped serial is appended and the new serial is written back. -/
theorem projector_synthesize (db : List RData) (diff : List DiffTuple)
    (syncFin : Bool) (now curr cs cr : Nat) (dc : Bool)
    (hcurr : dns_db_getsoaserial db = some curr)
    (han : diff_analyze_serial diff = some (dc, none))
    (hdc : (dc || !syncFin) = true)
    (hsoa : dns_db_getsoa db = some (cs, cr)) :
    ldap_parse_master_zoneentry_serial db diff false syncFin now =
      some { finalDiff := dns_diff_appendminimal
               (dns_diff_appendminimal diff ⟨.opDel, .soa cs cr⟩)
               ⟨.opAdd, .soa (dns_update_soaserial cs now) cr⟩,
             writeback := some (dns_update_soaserial cs now),
             dataChanged := dc,
             journal := !(dns_diff_appendminimal
               (dns_diff_appendminimal diff ⟨.opDel, .soa cs cr⟩)
               ⟨.opAdd, .soa (dns_update_soaserial cs now) cr⟩).isEmpty
               && syncFin,
             applied := !(dns_diff_appendminimal
               (dns_diff_appendminimal diff ⟨.opDel, .soa cs cr⟩)
               ⟨.opAdd, .soa (dns_update_soaserial cs now) cr⟩).isEmpty } := by
  simp [ldap_parse_master_zoneentry_serial, hcurr, han, hdc, hsoa]
  intro h
  rw [h] at hdc
  simpa using hdc

/-- Helper: run of the projector in the serial-rewrite branch for an
existing zone (data changed or resynchronizing; resynchronizing or a
non-increasing serial): the ADD-SOA serial is rewritten in place and
written back. -/
theorem projector_rewrite (db : List RData) (diff : List DiffTuple)
    (syncFin : Bool) (now curr a ra : Nat) (dc : Bool)
    (hcurr : dns_db_getsoaserial db = some curr)
    (han : diff_analyze_serial diff = some (dc, some (a, ra)))
    (hdc : (dc || !syncFin) = true)
    (hcond : (!syncFin || isc_serial_le a curr) = true) :
    ldap_parse_master_zoneentry_serial db diff false syncFin now =
      some { finalDiff := rewriteLastAddSOA diff (dns_update_soaserial a now),
             writeback := some (dns_update_soaserial a now),
             dataChanged := dc,
             journal := !(rewriteLastAddSOA diff (dns_update_soaserial a now)).isEmpty
               && syncFin,
             applied := !(rewriteLastAddSOA diff (dns_update_soaserial a now)).isEmpty } := by
  simp [ldap_parse_master_zoneentry_serial, hcurr, han, hdc, hcond]
  simp only [Bool.or_eq_true, Bool.not_eq_true'] at hdc hcond
  rw [if_pos hdc, if_pos hcond]

/-- Helper: run of the projector in the rewrite branch for a fresh zone:
the ADD-SOA serial is always rewritten and written back. -/
theorem projector_rewrite_newzone (db : List RData) (diff : List DiffTuple)
    (syncFin : Bool) (now a ra : Nat) (dc : Bool)
    (han : diff_analyze_serial diff = some (dc, some (a, ra)))
    (hdc : (dc || !syncFin) = true) :
    ldap_parse_master_zoneentry_serial db diff true syncFin now =
      some { finalDiff := rewriteLastAddSOA diff (dns_update_soaserial a now),
             writeback := some (dns_update_soaserial a now),
             dataChanged := dc,
             journal := false,
             applied := !(rewriteLastAddSOA diff (dns_update_soaserial a now)).isEmpty } := by
  simp [ldap_parse_master_zoneentry_serial, han]
  intro h1 h2
  rw [h1, h2] at hdc
  simp at hdc

/-- Helper: run of the projector when the diff already moves the serial
forward on a changed, synchronized zone: the diff is kept as is and
nothing is written back. -/
theorem projector_keep (db : List RData) (diff : List DiffTuple)
    (now curr a ra : Nat) (dc : Bool)
    (hcurr : dns_db_getsoaserial db = some curr)
    (han : diff_analyze_serial diff = some (dc, some (a, ra)))
    (hdc : dc = true)
    (hcond : isc_serial_le a curr = false) :
    ldap_parse_master_zoneentry_serial db diff false true now =
      some { finalDiff := diff, writeback := none, dataChanged := dc,
             journal := !diff.isEmpty, applied := !diff.isEmpty } := by
  simp [ldap_parse_master_zoneentry_serial, hcurr, han, hdc, hcond]

/-- Helper: run of the projector in the discard branch — no data change
and a non-increasing serial on a synchronized, existing zone: the whole
diff is dropped, nothing is applied, journalled, or written back. -/
theorem projector_discard (db : List RData) (diff : List DiffTuple)
    (now curr a ra : Nat)
    (hcurr : dns_db_getsoaserial db = some curr)
    (han : diff_analyze_serial diff = some (false, some (a, ra)))
    (hcond : isc_serial_le a curr = true) :
    ldap_parse_master_zoneentry_serial db diff false true now =
      some { finalDiff := [], writeback := none, dataChanged := false,
             journal := false, applied := false } := by
  simp [ldap_parse_master_zoneentry_serial, hcurr, han, hcond]

/-- Helper: run of the projector when nothing changed but the diff still
carries a forward-moving serial-only SOA change: the diff is applied as
is without a write-back. -/
theorem projector_keep2 (db : List RData) (diff : List DiffTuple)
    (now curr a ra : Nat)
    (hcurr : dns_db_getsoaserial db = some curr)
    (han : diff_analyze_serial diff = some (false, some (a, ra)))
    (hcond : isc_serial_le a curr = false) :
    ldap_parse_master_zoneentry_serial db diff false true now =
      some { finalDiff := diff, writeback := none, dataChanged := false,
             journal := !diff.isEmpty, applied := !diff.isEmpty } := by
  simp [ldap_parse_master_zoneentry_serial, hcurr, han, hcond]

/-- Helper: run of the projector on an empty diff of a synchronized,
existing zone: nothing happens. -/
theorem projector_empty (db : List RData) (diff : List DiffTuple)
    (now curr : Nat)
    (hcurr : dns_db_getsoaserial db = some curr)
    (han : diff_analyze_serial diff = some (false, none))
    (hemp : diff.isEmpty = true) :
    ldap_parse_master_zoneentry_serial db diff false true now =
      some { finalDiff := diff, writeback := none, dataChanged := false,
             journal := false, applied := false } := by
  simp [ldap_parse_master_zoneentry_serial, hcurr, han, hemp]

/-- Helper: serial-greater values differ mod 2^32. -/
theorem isc_serial_gt_ne {a b : Nat} (h : isc_serial_gt a b = true) :
    a % U32 ≠ b % U32 := by
  intro heq
  unfold isc_serial_gt serialDist at h
  rw [heq] at h
  have hb : b % U32 < U32 := Nat.mod_lt _ (by unfold U32; omega)
  rw [show b % U32 + (U32 - b % U32) = U32 by omega] at h
  simp [U32] at h

/-- Helper: the last ADD-SOA of a diff ending in an ADD-SOA tuple. -/
theorem lastAddSOA_append_addsoa (l : List DiffTuple) (s r : Nat) :
    lastAddSOA (l ++ [⟨.opAdd, .soa s r⟩]) = some (s, r) := by
  unfold lastAddSOA
  rw [List.reverse_append]
  simp [List.find?, isAddSOA, RData.isSOA]

/-- Helper: replacing the serial of the first ADD-SOA keeps it first. -/
theorem setAddSOASerialFirst_find (m : List DiffTuple) (s a ra : Nat)
    (h : m.find? isAddSOA = some ⟨.opAdd, .soa a ra⟩) :
    (setAddSOASerialFirst s m).find? isAddSOA = some ⟨.opAdd, .soa s ra⟩ := by
  induction m with
  | nil => cases h
  | cons t rest ih =>
    cases ht : isAddSOA t with
    | true =>
      rw [List.find?_cons_of_pos _ ht] at h
      cases h
      unfold setAddSOASerialFirst
      rw [if_pos ht]
      rw [List.find?_cons_of_pos _ (by simp [isAddSOA, RData.isSOA, RData.setSerial])]
      rfl
    | false =>
      rw [List.find?_cons_of_neg _ (by simp [ht])] at h
      unfold setAddSOASerialFirst
      rw [if_neg (by simp [ht])]
      rw [List.find?_cons_of_neg _ (by simp [ht])]
      exact ih h

/-- Helper: `rewriteLastAddSOA` replaces exactly the serial of the last
ADD-SOA tuple. -/
theorem rewriteLastAddSOA_lastAdd {diff : List DiffTuple} {a ra : Nat} (s : Nat)
    (h : lastAddSOA diff = some (a, ra)) :
    lastAddSOA (rewriteLastAddSOA diff s) = some (s, ra) := by
  unfold lastAddSOA at h ⊢
  unfold rewriteLastAddSOA
  rw [List.reverse_reverse]
  cases hf : diff.reverse.find? isAddSOA with
  | none =>
    rw [hf] at h
    cases h
  | some x =>
    rw [hf] at h
    have hx := List.find?_some hf
    obtain ⟨op, rd⟩ := x
    cases op <;> cases rd <;> simp_all [isAddSOA, RData.isSOA]
    rw [setAddSOASerialFirst_find diff.reverse s a ra hf]

/-- Helper: the analyzer never clears the `dataChanged` flag. -/
theorem analyze_fold_dc_mono (l : List DiffTuple) :
    ∀ st res : AnalyzeState,
      l.foldlM diff_analyze_step st = some res →
      st.dataChanged = true → res.dataChanged = true := by
  induction l with
  | nil =>
    intro st res h hdc
    cases h
    exact hdc
  | cons t rest ih =>
    intro st res h hdc
    rw [List.foldlM_cons] at h
    cases hs : diff_analyze_step st t with
    | none => rw [hs] at h; cases h
    | some st' =>
      rw [hs] at h
      simp only [Option.bind_eq_bind, Option.some_bind] at h
      refine ih st' res h ?_
      obtain ⟨op, rd⟩ := t
      cases rd with
      | other ty d =>
        simp only [diff_analyze_step] at hs
        cases hs
        rfl
      | soa ss rr =>
        cases op with
        | opAdd =>
          simp only [diff_analyze_step] at hs
          rcases hd : st.delSoa with _ | ⟨ds, dr⟩ <;> rw [hd] at hs <;> cases hs
          · rfl
          · simp [hdc]
        | opDel =>
          simp only [diff_analyze_step] at hs
          rcases hd : st.delSoa with _ | p <;> rw [hd] at hs <;> cases hs
          exact hdc

/-- Helper: an analyzer run reporting no data change and no SOA saw an
empty diff. -/
theorem diff_analyze_false_none_nil {diff : List DiffTuple}
    (h : diff_analyze_serial diff = some (false, none)) : diff = [] := by
  have hfree := diff_analyze_serial_no_soa h
  obtain ⟨st, hf, hd, hdc, hlat⟩ := diff_analyze_serial_spec h
  cases diff with
  | nil => rfl
  | cons t rest =>
    exfalso
    rw [List.foldlM_cons] at hf
    cases hs : diff_analyze_step ⟨false, none, none⟩ t with
    | none => rw [hs] at hf; cases hf
    | some st' =>
      rw [hs] at hf
      simp only [Option.bind_eq_bind, Option.some_bind] at hf
      have ht := hfree t (by simp)
      obtain ⟨op, rd⟩ := t
      cases rd with
      | soa ss rr => simp [RData.isSOA] at ht
      | other ty d =>
        simp only [diff_analyze_step] at hs
        cases hs
        have := analyze_fold_dc_mono rest _ _ hf rfl
        rw [hdc] at this
        cases this

/-- Helper: `rds_to_diff` appends verbatim when no rdata of the input list
already occurs in the accumulated diff and the list has no duplicates. -/
theorem rds_to_diff_fresh (op : DiffOp) :
    ∀ (rs : List RData) (d : List DiffTuple), rs.Nodup →
      (∀ t ∈ d, t.rdata ∉ rs) →
      rds_to_diff op rs d = d ++ rs.map (fun r => ⟨op, r⟩) := by
  intro rs
  induction rs with
  | nil =>
    intro d _ _
    simp [rds_to_diff]
  | cons r rest ih =>
    intro d hnd hfresh
    have hstep : dns_diff_appendminimal d ⟨op, r⟩ = d ++ [⟨op, r⟩] := by
      refine dns_diff_appendminimal_no_match ?_
      intro ot hot heq
      exact hfresh ot hot (by simp [heq])
    have hrec : rds_to_diff op rest (d ++ [⟨op, r⟩]) =
        (d ++ [⟨op, r⟩]) ++ rest.map (fun r2 => ⟨op, r2⟩) := by
      refine ih (d ++ [⟨op, r⟩]) (List.Nodup.of_cons hnd) ?_
      intro t ht
      rcases List.mem_append.mp ht with ht | ht
      · intro hmem
        exact hfresh t ht (List.mem_cons_of_mem r hmem)
      · have ht2 : t = ⟨op, r⟩ := by simpa using ht
        subst ht2
        simpa using (List.nodup_cons.mp hnd).1
    calc rds_to_diff op (r :: rest) d
        = rds_to_diff op rest (dns_diff_appendminimal d ⟨op, r⟩) := by
          simp [rds_to_diff]
      _ = rds_to_diff op rest (d ++ [⟨op, r⟩]) := by rw [hstep]
      _ = d ++ (r :: rest).map (fun r2 => ⟨op, r2⟩) := by
          rw [hrec]
          simp

/-- Helper: adding back exactly the deleted rdata cancels each DEL tuple
through `dns_diff_appendminimal`, leaving an empty diff. -/
theorem rds_to_diff_cancel :
    ∀ rs : List RData, rs.Nodup →
      rds_to_diff .opAdd rs (rs.map (fun r => ⟨.opDel, r⟩)) = [] := by
  intro rs
  induction rs with
  | nil =>
    intro _
    rfl
  | cons r rest ih =>
    intro hnd
    have hstep : dns_diff_appendminimal
        ((r :: rest).map (fun r2 => ⟨.opDel, r2⟩)) ⟨.opAdd, r⟩ =
        rest.map (fun r2 => ⟨.opDel, r2⟩) := by
      unfold dns_diff_appendminimal
      rw [List.map_cons, List.find?_cons_of_pos _ (by simp)]
      simp
    calc rds_to_diff .opAdd (r :: rest)
          ((r :: rest).map (fun r2 => ⟨.opDel, r2⟩))
        = rds_to_diff .opAdd rest
            (dns_diff_appendminimal
              ((r :: rest).map (fun r2 => ⟨.opDel, r2⟩)) ⟨.opAdd, r⟩) := by
          simp [rds_to_diff]
      _ = rds_to_diff .opAdd rest (rest.map (fun r2 => ⟨.opDel, r2⟩)) := by
          rw [hstep]
      _ = [] := ih (List.Nodup.of_cons hnd)

/-- Helper: the minimal diff between a database and identical LDAP entry
content is empty. -/
theorem diff_ldap_rbtdb_self (db : List RData) (hnd : db.Nodup) :
    diff_ldap_rbtdb db db = [] := by
  unfold diff_ldap_rbtdb
  rw [rds_to_diff_fresh .opDel db [] hnd (by intro t ht; cases ht)]
  simp only [List.nil_append]
  exact rds_to_diff_cancel db hnd

/-- C4 (amended): when the computed diff of an existing zone contains no
change other than the SOA record (diff_analyze_serial reports no data
change) and its SOA serial does not move strictly forward, AND the zone's
sync state is Finished, the entire diff is discarded: nothing is applied,
no journal transaction is written and no serial is written back (with
sync not yet Finished the diff is instead rewritten and applied, see the
counterexample).  Echo absorption: the engine's write-back makes the
directory content identical to the applied database, and replaying it as
a subsequent change-stream event computes an empty minimal diff, whose
projection does nothing. -/
theorem c4_discard_and_echo_absorption
    (db : List RData) (diff : List DiffTuple) (now curr a ra : Nat)
    (res : ProjResult) (db2 : List RData) (curr2 : Nat)
    (hcurr : dns_db_getsoaserial db = some curr)
    (han : diff_analyze_serial diff = some (false, some (a, ra)))
    (hle : isc_serial_le a curr = true)
    (hrun : ldap_parse_master_zoneentry_serial db diff false true now =
      some res)
    (hnd : db2.Nodup)
    (hcurr2 : dns_db_getsoaserial db2 = some curr2) :
    (res.finalDiff = [] ∧ res.applied = false ∧ res.journal = false ∧
      res.writeback = none) ∧
    diff_ldap_rbtdb db2 db2 = [] ∧
    ldap_parse_master_zoneentry_serial db2 (diff_ldap_rbtdb db2 db2)
        false true now =
      some { finalDiff := [], writeback := none, dataChanged := false,
             journal := false, applied := false } := by
  have hself := diff_ldap_rbtdb_self db2 hnd
  refine ⟨?_, hself, ?_⟩
  · rw [projector_discard db diff now curr a ra hcurr han hle] at hrun
    cases hrun
    exact ⟨rfl, rfl, rfl, rfl⟩
  · rw [hself]
    exact projector_empty db2 [] now curr2 hcurr2 rfl rfl

/-- Witness for `c4_discard_and_echo_absorption`: a database holding SOA
serial 9 plus one other record; replaying identical directory content
yields an empty diff and a do-nothing projection, and a serial-only diff
moving the serial back to 5 on a synchronized zone is discarded. -/
theorem c4_discard_and_echo_absorption_witness :
    diff_ldap_rbtdb [RData.soa 9 3, RData.other 1 1]
        [RData.soa 9 3, RData.other 1 1] = [] ∧
    ldap_parse_master_zoneentry_serial [RData.soa 9 3, RData.other 1 1]
        (diff_ldap_rbtdb [RData.soa 9 3, RData.other 1 1]
          [RData.soa 9 3, RData.other 1 1]) false true 100 =
      some { finalDiff := [], writeback := none, dataChanged := false,
             journal := false, applied := false } := by
  have h := c4_discard_and_echo_absorption [RData.soa 9 3]
    [⟨.opDel, .soa 9 3⟩, ⟨.opAdd, .soa 5 3⟩] 100 9 5 3
    { finalDiff := [], writeback := none, dataChanged := false,
      journal := false, applied := false }
    [RData.soa 9 3, RData.other 1 1] 9
    (by decide) (by decide) (by decide) (by decide) (by decide) (by decide)
  exact ⟨h.2.1, h.2.2⟩

/-- C3 (amended): for a successful master-zone projection of an existing
zone, provided the current unix time is nonzero and serial-greater than
the zone's prior serial and than the diff's SOA serial, and the diff's SOA
serial is serial-comparable with the prior serial (no exact 2^31 distance),
(1) every applied projection leaves an SOA whose serial is strictly
serial-greater than the prior serial, (2) whatever serial is written back
to the directory is exactly the serial left in the applied diff, and
(3) the serial is written back exactly when the projector synthesized a
missing SOA pair or rewrote the serial — data changed with no SOA tuple in
the diff, sync state not Finished, or a non-increasing serial in the diff;
(4) a fresh zone whose diff carries an SOA also gets a write-back. -/
theorem c3_soa_serial_monotonic_writeback
    (db : List RData) (diff : List DiffTuple) (syncFin : Bool)
    (now curr : Nat) (res : ProjResult) (dc : Bool)
    (latest : Option (Nat × Nat))
    (hrun : ldap_parse_master_zoneentry_serial db diff false syncFin now = some res)
    (hcurr : dns_db_getsoaserial db = some curr)
    (han : diff_analyze_serial diff = some (dc, latest))
    (hcU : curr < U32)
    (hnow0 : now % U32 ≠ 0)
    (hnowc : isc_serial_gt now curr = true)
    (hlatest : ∀ a ra, latest = some (a, ra) →
      isc_serial_gt now a = true ∧
        (isc_serial_gt a curr = true ∨ isc_serial_le a curr = true)) :
    (res.applied = true →
      ∃ s r, lastAddSOA res.finalDiff = some (s, r) ∧
        isc_serial_gt s curr = true) ∧
    (∀ s, res.writeback = some s →
      (lastAddSOA res.finalDiff).map (·.1) = some s) ∧
    (res.writeback.isSome = true ↔
      ((dc || !syncFin) = true ∧
       (latest = none ∨ syncFin = false ∨
        ∃ a ra, latest = some (a, ra) ∧ isc_serial_le a curr = true))) ∧
    (∀ a ra res2, latest = some (a, ra) → (dc || !syncFin) = true →
      ldap_parse_master_zoneentry_serial db diff true syncFin now = some res2 →
      res2.writeback.isSome = true) := by
  have hconj4 : ∀ a ra res2, latest = some (a, ra) → (dc || !syncFin) = true →
      ldap_parse_master_zoneentry_serial db diff true syncFin now = some res2 →
      res2.writeback.isSome = true := by
    intro a ra res2 hla hdc2 hrun3
    rw [hla] at han
    rw [projector_rewrite_newzone db diff syncFin now a ra dc han hdc2] at hrun3
    cases hrun3
    rfl
  have hcurr2 := hcurr
  unfold dns_db_getsoaserial at hcurr2
  obtain ⟨⟨cs, cr⟩, hsoa, hfst⟩ := Option.map_eq_some'.mp hcurr2
  simp only at hfst
  subst hfst
  cases latest with
  | none =>
    by_cases hdc : (dc || !syncFin) = true
    · -- synthesis branch
      rw [projector_synthesize db diff syncFin now cs cs cr dc hcurr han hdc hsoa]
        at hrun
      cases hrun
      have hnos := diff_analyze_serial_no_soa han
      have hS : dns_update_soaserial cs now = now % U32 :=
        dns_update_soaserial_eq_now hnow0 hnowc
      have hne : now % U32 ≠ cs := by
        have := isc_serial_gt_ne hnowc
        rwa [Nat.mod_eq_of_lt hcU] at this
      have hap1 : dns_diff_appendminimal diff ⟨.opDel, .soa cs cr⟩ =
          diff ++ [⟨.opDel, .soa cs cr⟩] := by
        refine dns_diff_appendminimal_no_match ?_
        intro ot hot
        have := hnos ot hot
        cases hrd : ot.rdata <;> simp_all [RData.isSOA]
      have hap2 : dns_diff_appendminimal (diff ++ [⟨.opDel, .soa cs cr⟩])
          ⟨.opAdd, .soa (dns_update_soaserial cs now) cr⟩ =
          (diff ++ [⟨.opDel, .soa cs cr⟩]) ++
            [⟨.opAdd, .soa (dns_update_soaserial cs now) cr⟩] := by
        refine dns_diff_appendminimal_no_match ?_
        intro ot hot
        rcases List.mem_append.mp hot with hot | hot
        · have := hnos ot hot
          cases hrd : ot.rdata <;> simp_all [RData.isSOA]
        · have hot2 : ot = ⟨.opDel, .soa cs cr⟩ := by simpa using hot
          subst hot2
          simp only [hS]
          intro hcontra
          injection hcontra with h1 h2
          exact hne h1.symm
      refine ⟨?_, ?_, ?_, hconj4⟩
      · intro _
        refine ⟨dns_update_soaserial cs now, cr, ?_, ?_⟩
        · simp only [hap1, hap2]
          exact lastAddSOA_append_addsoa _ _ _
        · rw [hS, isc_serial_gt_mod_left]
          exact hnowc
      · intro s hs
        simp only at hs
        cases hs
        simp only [hap1, hap2, lastAddSOA_append_addsoa]
        rfl
      · simp only [Option.isSome_some, true_iff]
        exact ⟨hdc, Or.inl (by trivial)⟩
    · -- empty diff branch
      have hb : dc = false ∧ syncFin = true := by
        cases dc <;> cases syncFin <;> simp_all
      obtain ⟨hb1, hb2⟩ := hb
      subst hb1
      subst hb2
      have hnil := diff_analyze_false_none_nil han
      rw [projector_empty db diff now cs hcurr han (by simp [hnil])] at hrun
      cases hrun
      refine ⟨?_, ?_, ?_, hconj4⟩
      · intro h
        cases h
      · intro s hs
        cases hs
      · simp
  | some p =>
    obtain ⟨a, ra⟩ := p
    obtain ⟨hga, hcomp⟩ := hlatest a ra rfl
    have hlastdiff := diff_analyze_serial_latest han
    have hS : dns_update_soaserial a now = now % U32 :=
      dns_update_soaserial_eq_now hnow0 hga
    by_cases hdc : (dc || !syncFin) = true
    · by_cases hcond : (!syncFin || isc_serial_le a cs) = true
      · -- rewrite branch
        rw [projector_rewrite db diff syncFin now cs a ra dc hcurr han hdc hcond]
          at hrun
        cases hrun
        have hlast2 := rewriteLastAddSOA_lastAdd (dns_update_soaserial a now)
          hlastdiff
        refine ⟨?_, ?_, ?_, hconj4⟩
        · intro _
          refine ⟨dns_update_soaserial a now, ra, hlast2, ?_⟩
          rw [hS, isc_serial_gt_mod_left]
          exact hnowc
        · intro s hs
          simp only at hs
          cases hs
          rw [hlast2]
          rfl
        · simp only [Option.isSome_some, true_iff]
          refine ⟨hdc, ?_⟩
          rcases Bool.or_eq_true_iff.mp hcond with h | h
          · exact Or.inr (Or.inl (by simpa using h))
          · exact Or.inr (Or.inr ⟨a, ra, rfl, h⟩)
      · -- keep branch (serial already moves forward)
        have hb : syncFin = true ∧ isc_serial_le a cs = false := by
          cases syncFin <;> cases hle : isc_serial_le a cs <;> simp_all
        obtain ⟨hb1, hb2⟩ := hb
        subst hb1
        have hdct : dc = true := by simpa using hdc
        rw [projector_keep db diff now cs a ra dc hcurr han hdct hb2] at hrun
        cases hrun
        refine ⟨?_, ?_, ?_, hconj4⟩
        · intro _
          exact ⟨a, ra, hlastdiff,
            isc_serial_gt_of_not_le hcomp (by simp [hb2])⟩
        · intro s hs
          cases hs
        · refine ⟨fun h => absurd h (by simp), ?_⟩
          rintro ⟨h1, h2⟩
          rcases h2 with h2 | h2 | ⟨a2, ra2, h2, h3⟩
          · cases h2
          · cases h2
          · simp only [Option.some.injEq, Prod.mk.injEq] at h2
            obtain ⟨rfl, rfl⟩ := h2
            rw [hb2] at h3
            exact h3
    · -- no data change, synchronized
      have hb : dc = false ∧ syncFin = true := by
        cases dc <;> cases syncFin <;> simp_all
      obtain ⟨hb1, hb2⟩ := hb
      subst hb1
      subst hb2
      by_cases hle : isc_serial_le a cs = true
      · -- discard branch
        rw [projector_discard db diff now cs a ra hcurr han hle] at hrun
        cases hrun
        refine ⟨?_, ?_, ?_, hconj4⟩
        · intro h
          cases h
        · intro s hs
          cases hs
        · simp
      · -- keep branch (serial-only change moving forward)
        rw [projector_keep2 db diff now cs a ra hcurr han
          (by simpa using hle)] at hrun
        cases hrun
        refine ⟨?_, ?_, ?_, hconj4⟩
        · intro _
          exact ⟨a, ra, hlastdiff, isc_serial_gt_of_not_le hcomp hle⟩
        · intro s hs
          cases hs
        · simp

/-- Witness for `c3_soa_serial_monotonic_writeback`: an existing
synchronized zone with prior serial 10, an LDAP diff already moving the
serial forward to 20 plus a data change, projected at unix time 1000; the
applied diff leaves SOA serial 20, strictly serial-greater than 10. -/
theorem c3_soa_serial_monotonic_writeback_witness :
    ∃ s r,
      lastAddSOA [⟨.opDel, .soa 10 7⟩, ⟨.opAdd, .soa 20 7⟩,
                  ⟨.opAdd, .other 1 1⟩] = some (s, r) ∧
      isc_serial_gt s 10 = true := by
  have h := c3_soa_serial_monotonic_writeback [.soa 10 7]
    [⟨.opDel, .soa 10 7⟩, ⟨.opAdd, .soa 20 7⟩, ⟨.opAdd, .other 1 1⟩]
    true 1000 10
    ⟨[⟨.opDel, .soa 10 7⟩, ⟨.opAdd, .soa 20 7⟩, ⟨.opAdd, .other 1 1⟩],
     none, true, true, true⟩
    true (some (20, 7)) (by decide) (by decide) (by decide) (by decide)
    (by decide) (by decide)
    (by
      intro a ra hh
      cases hh
      exact ⟨by decide, Or.inl (by decide)⟩)
  exact h.1 (by decide)

end BindDyndbLdap
